import Mathlib

/-!
Verification development for the extractr repository: a template-driven
web-data extraction engine.  The source (TypeScript) is shallowly embedded:

* `TVal` models a JavaScript value (the records produced by extraction and
  the duck-typed template values consumed by the validator);
* a small executable regular-expression engine models the host `RegExp`
  facility on the syntactic subset the repository uses (literals, escapes,
  classes, groups, alternation, `* + ?`, anchors); patterns outside this
  subset are treated as failing to compile;
* the DOM and the CSS selector engine are external collaborators of the
  code, so the extraction engine is parametrised over a `Host` capability
  (selector validity, element matching, date parsing, URL resolution);
* the multi-page orchestration loop of `extractWithBrowser` is embedded as
  explicit state passing over an environment of per-iteration outcomes
  (abort-signal state, per-page extraction result, timeout checks,
  presence/activation of the pagination control), since those outcomes are
  produced by the live browser session.

Numbers are modelled as `Rat` (the source only ever produces finite decimal
values on the paths specified here); machine floating point, `NaN` and
overflow are out of scope of the claims settled below — the source
explicitly guards the one `NaN`-producing path (`parseInt`/`parseFloat`
transforms) and that guard is part of the model.
-/

/-- Model of a JavaScript value. `undef` is `undefined`; `obj` is an object
as an insertion-ordered association list (first binding wins on lookup,
mirroring property lookup on objects whose keys are unique). -/
inductive TVal where
  | undef
  | null
  | bool (b : Bool)
  | num (q : Rat)
  | str (s : String)
  | arr (elems : List TVal)
  | obj (kvs : List (String × TVal))

/-- JavaScript truthiness of a value (`NaN` is unrepresentable here; every
number the embedded code produces is an actual rational). -/
def truthy : TVal → Bool
  | .undef => false
  | .null => false
  | .bool b => b
  | .num q => q != 0
  | .str s => s != ""
  | .arr _ => true
  | .obj _ => true

/-- JavaScript `typeof`. -/
def typeofTV : TVal → String
  | .undef => "undefined"
  | .null => "object"
  | .bool _ => "boolean"
  | .num _ => "number"
  | .str _ => "string"
  | .arr _ => "object"
  | .obj _ => "object"

/-- `Array.isArray`. -/
def isArrayTV : TVal → Bool
  | .arr _ => true
  | _ => false

def lookupKV : List (String × TVal) → String → Option TVal
  | [], _ => none
  | (k, v) :: rest, key => if k == key then some v else lookupKV rest key

/-- Property read `recv[key]`: throws a `TypeError` on `null`/`undefined`,
returns `undefined` for absent properties and for primitive receivers
(primitive boxing has no own properties the code reads). -/
def getProp : TVal → String → Except String TVal
  | .undef, k => .error ("TypeError: cannot read properties of undefined (reading " ++ k ++ ")")
  | .null, k => .error ("TypeError: cannot read properties of null (reading " ++ k ++ ")")
  | .obj kvs, k => .ok ((lookupKV kvs k).getD .undef)
  | _, _ => .ok (.undef)

/-- JavaScript object property write `o[k] = v`: updates in place if the key
exists, appends otherwise (insertion order of first assignment is kept). -/
def objSet : List (String × TVal) → String → TVal → List (String × TVal)
  | [], key, v => [(key, v)]
  | (k, w) :: rest, key, v =>
    if k == key then (k, v) :: rest else (k, w) :: objSet rest key v

/-! ### Character-list string helpers

The embedded code manipulates strings heavily; these helpers mirror the
JavaScript string methods used by the source on `List Char`.  (Lean's own
`String.trim` is byte-position based and is not used.) -/

def isJsSpace (c : Char) : Bool :=
  c == ' ' || c == '\t' || c == '\n' || c == '\r' || c == '\x0b' || c == '\x0c'

def dropLeadingSpace : List Char → List Char
  | [] => []
  | c :: cs => if isJsSpace c then dropLeadingSpace cs else c :: cs

/-- `String.prototype.trim`. -/
def jsTrim (s : String) : String :=
  .mk ((dropLeadingSpace ((dropLeadingSpace s.toList.reverse).reverse)))

def jsToLowerChar (c : Char) : Char :=
  if 'A' ≤ c && c ≤ 'Z' then Char.ofNat (c.toNat + 32) else c

def jsToUpperChar (c : Char) : Char :=
  if 'a' ≤ c && c ≤ 'z' then Char.ofNat (c.toNat - 32) else c

/-- `String.prototype.toLowerCase` (ASCII; the source only feeds scraped
text through it and no claim depends on non-ASCII case mapping). -/
def jsToLower (s : String) : String := .mk (s.toList.map jsToLowerChar)

/-- `String.prototype.toUpperCase` (ASCII). -/
def jsToUpper (s : String) : String := .mk (s.toList.map jsToUpperChar)

def listStarts : List Char → List Char → Bool
  | _, [] => true
  | [], _ :: _ => false
  | a :: as, b :: bs => a == b && listStarts as bs

/-- Does `h` contain `n` as a contiguous substring (`String.includes`)? -/
def strHas (h n : String) : Bool :=
  (List.range (h.toList.length + 1)).any (fun i => listStarts (h.toList.drop i) n.toList)

/-- `String.prototype.startsWith`. -/
def jsStartsWith (s p : String) : Bool := listStarts s.toList p.toList

/-- `String.prototype.slice` with the usual negative-index and clamping
semantics (`undefined` end means end of string). -/
def jsSlice (s : String) (start : Int) (stop : Option Int) : String :=
  let len : Int := s.toList.length
  let norm : Int → Int := fun i => if i < 0 then max (len + i) 0 else min i len
  let a := norm start
  let b := norm (stop.getD len)
  .mk ((s.toList.drop a.toNat).take (b - a).toNat)

/-- `String.prototype.split` with a plain (non-regex) separator, which is
what the source passes. -/
def jsSplit (s sep : String) : List String :=
  if sep == "" then s.toList.map (fun c => String.mk [c]) else s.splitOn sep

/-! ### validateUrl (src/extractor.ts)

`validateUrl` relies on the host WHATWG `URL` constructor.  The subset of
URL parsing it exercises (scheme, authority with optional port, path,
query) is embedded below; hosts containing forbidden code points such as
spaces make the constructor throw, which the model renders as `none`. -/

structure UrlValidation where
  valid : Bool
  normalized : Option String
  error : Option String

structure ParsedUrl where
  scheme : String
  hostname : String
  port : String
  rest : String

def isSchemeChar (c : Char) : Bool :=
  c.isAlpha || c.isDigit || c == '+' || c == '-' || c == '.'

def isHostChar (c : Char) : Bool :=
  c.isAlpha || c.isDigit || c == '.' || c == '-' || c == '_' || c == '~' || c == '%'

def splitAtChar (cs : List Char) (stop : Char → Bool) : List Char × List Char :=
  match cs with
  | [] => ([], [])
  | c :: rest =>
    if stop c then ([], c :: rest)
    else
      let (a, b) := splitAtChar rest stop
      (c :: a, b)

/-- The suffix of `cs` after the last occurrence of `sep` (all of `cs` when
`sep` does not occur). -/
def takeAfterLast (cs : List Char) (sep : Char) : List Char :=
  (cs.reverse.takeWhile (fun c => c != sep)).reverse

/-- Model of `new URL(s)` for absolute http(s)-style URLs: returns the
parsed pieces or `none` when the host constructor would throw. -/
def parseURL (s : String) : Option ParsedUrl :=
  let cs := s.toList
  let (schemeCs, rest1) := splitAtChar cs (· == ':')
  if schemeCs.isEmpty || !schemeCs.all isSchemeChar || !(schemeCs.head?.elim false Char.isAlpha) then none
  else
    match rest1 with
    | ':' :: '/' :: '/' :: rest2 =>
      let (authority, pathCs) := splitAtChar rest2 (fun c => c == '/' || c == '?' || c == '#')
      -- userinfo (text up to the last '@') is dropped, as the host parser does
      let hostPort := takeAfterLast authority '@'
      let (hostCs, portPart) := splitAtChar hostPort (· == ':')
      let portCs := match portPart with
        | [] => []
        | _ :: rest => rest
      if hostCs.isEmpty || !hostCs.all isHostChar then none
      else if !portCs.all Char.isDigit then none
      else
        some {
          scheme := jsToLower (.mk schemeCs)
          hostname := jsToLower (.mk hostCs)
          port := .mk portCs
          rest := .mk pathCs
        }
    | _ => none

/-- `URL.prototype.href`: serialisation with the path normalised to `/` when
empty and an empty port dropped. -/
def ParsedUrl.href (u : ParsedUrl) : String :=
  u.scheme ++ "://" ++ u.hostname ++
    (if u.port == "" then "" else ":" ++ u.port) ++
    (if u.rest == "" then "/" else u.rest)

/-- Case-insensitive test for the anchored literal regex
`/^https?:\x2f\x2f/i` used by `validateUrl`. -/
def hasHttpScheme (s : String) : Bool :=
  jsStartsWith (jsToLower s) ("http://") || jsStartsWith (jsToLower s) ("https://")

/-- `validateUrl` (src/extractor.ts, lines 9-42).  The input is typed
`string`, so the `typeof` guard only rejects the empty string here. -/
def validateUrl (url : String) : UrlValidation :=
  if url == "" then
    { valid := false, normalized := none, error := some ("URL must be a non-empty string") }
  else
    let trimmed := jsTrim url
    if trimmed == "" then
      { valid := false, normalized := none, error := some ("URL cannot be empty") }
    else
      let normalized := if hasHttpScheme trimmed then trimmed else "https://" ++ trimmed
      match parseURL normalized with
      | none =>
        -- the host `URL` constructor throws `TypeError: Invalid URL`
        { valid := false, normalized := none, error := some ("Invalid URL format: Invalid URL") }
      | some parsed =>
        if parsed.hostname == "" then
          { valid := false, normalized := none, error := some ("URL must have a valid hostname") }
        else
          { valid := true, normalized := some parsed.href, error := none }

/-! ### A small regular-expression engine

Models the host `RegExp` facility on the syntactic subset exercised by the
repository: literal characters, escapes (`\d \D \w \W \s \S \n \t` …,
escaped punctuation), character classes with ranges and negation, `.`,
capturing and non-capturing groups, alternation, the greedy quantifiers
`* + ?`, and the anchors `^ $`.  Constructs outside the subset (brace
quantifiers, lazy quantifiers, backreferences, lookaround, …) are treated
as failing to compile.  Matching is leftmost, greedy-first backtracking
with the ECMAScript rule that a quantified atom stops repeating once an
iteration matches the empty string. -/

/-- One item of a character class. -/
inductive CI where
  | ch (c : Char)
  | range (a b : Char)
  | dig
  | ndig
  | wrd
  | nwrd
  | spc
  | nspc

/-- Regular-expression abstract syntax. -/
inductive RE where
  | eps
  | lit (c : Char)
  | dot
  | cls (neg : Bool) (items : List CI)
  | seq (a b : RE)
  | alt (a b : RE)
  | star (a : RE)
  | group (i : Nat) (a : RE)
  | bol
  | eol

def isWordC (c : Char) : Bool := c.isAlpha || c.isDigit || c == '_'

def eqChar (ci : Bool) (a b : Char) : Bool :=
  a == b || (ci && (jsToLowerChar a == jsToLowerChar b))

def clsItemMatch (ci : Bool) (item : CI) (c : Char) : Bool :=
  match item with
  | .ch a => eqChar ci a c
  | .range a b =>
    (a ≤ c && c ≤ b) ||
      (ci && ((a ≤ jsToLowerChar c && jsToLowerChar c ≤ b) ||
              (a ≤ jsToUpperChar c && jsToUpperChar c ≤ b)))
  | .dig => c.isDigit
  | .ndig => !c.isDigit
  | .wrd => isWordC c
  | .nwrd => !isWordC c
  | .spc => isJsSpace c
  | .nspc => !isJsSpace c

/-- Capture slots: group `i` is stored at index `i - 1` as a start/stop
position pair (`none` = the group did not participate). -/
abbrev Caps := List (Option (Nat × Nat))

def setCap (cp : Caps) (i : Nat) (v : Nat × Nat) : Caps := cp.set (i - 1) (some v)

def reSize : RE → Nat
  | .seq a b => reSize a + reSize b + 1
  | .alt a b => reSize a + reSize b + 1
  | .star a => reSize a + 1
  | .group _ a => reSize a + 1
  | _ => 1

/-- Backtracking matcher: all ways to match `re` at position `p`, as a list
of (stop position, captures) pairs in ECMAScript preference order (the head
is the alternative the host engine picks).  The fuel bounds recursion depth
and is chosen ample by the callers. -/
def mrun (ci : Bool) (s : List Char) : Nat → RE → Nat → Caps → List (Nat × Caps)
  | 0, _, _, _ => []
  | fuel+1, re, p, cp =>
    match re with
    | .eps => [(p, cp)]
    | .lit c =>
      match s.get? p with
      | some c2 => if eqChar ci c c2 then [(p + 1, cp)] else []
      | none => []
    | .dot =>
      match s.get? p with
      | some c2 => if c2 == '\n' then [] else [(p + 1, cp)]
      | none => []
    | .cls neg items =>
      match s.get? p with
      | some c2 => if (items.any (fun it => clsItemMatch ci it c2)) != neg then [(p + 1, cp)] else []
      | none => []
    | .seq a b =>
      (mrun ci s fuel a p cp).flatMap (fun pc => mrun ci s fuel b pc.1 pc.2)
    | .alt a b => mrun ci s fuel a p cp ++ mrun ci s fuel b p cp
    | .star a =>
      ((mrun ci s fuel a p cp).filter (fun pc => pc.1 != p)).flatMap
          (fun pc => mrun ci s fuel (.star a) pc.1 pc.2)
        ++ [(p, cp)]
    | .group i a =>
      (mrun ci s fuel a p cp).map (fun pc => (pc.1, setCap pc.2 i (p, pc.1)))
    | .bol => if p == 0 then [(p, cp)] else []
    | .eol => if p == s.length then [(p, cp)] else []

def matchFuel (re : RE) (s : List Char) : Nat := (reSize re + 2) * (s.length + 2)

/-- Leftmost match: the first start position with a non-empty candidate
list, together with the engine's preferred stop position and captures. -/
def firstMatchPos (ci : Bool) (re : RE) (ng : Nat) (cs : List Char) : Option (Nat × Nat × Caps) :=
  (List.range (cs.length + 1)).findSome? (fun p =>
    (mrun ci cs (matchFuel re cs) re p (List.replicate ng none)).head?.map
      (fun pc => (p, pc.1, pc.2)))

def sliceCs (cs : List Char) (a b : Nat) : String := .mk ((cs.drop a).take (b - a))

/-- `String.prototype.match` result (no `g` flag): `none` for no match, or
the array `[whole, group 1, …]` with `none` for non-participating groups. -/
def firstMatchArr (re : RE) (ng : Nat) (s : String) : Option (List (Option String)) :=
  match firstMatchPos false re ng s.toList with
  | none => none
  | some (p, e, caps) =>
    some (some (sliceCs s.toList p e) :: caps.map (fun oc => oc.map (fun ab => sliceCs s.toList ab.1 ab.2)))

/-- `RegExp.prototype.test` for an already-built pattern. -/
def regexTestRE (re : RE) (s : String) : Bool :=
  (firstMatchPos false re 0 s.toList).isSome

/-! Parser for pattern strings (recursive descent; the group counter `g`
starts at 1 and is threaded left to right, matching ECMAScript group
numbering). -/

def rootEscape (c : Char) : Option RE :=
  if c == 'd' then some (.cls false [.dig])
  else if c == 'D' then some (.cls true [.dig])
  else if c == 'w' then some (.cls false [.wrd])
  else if c == 'W' then some (.cls true [.wrd])
  else if c == 's' then some (.cls false [.spc])
  else if c == 'S' then some (.cls true [.spc])
  else if c == 'n' then some (.lit '\n')
  else if c == 't' then some (.lit '\t')
  else if c == 'r' then some (.lit '\r')
  else if c == 'f' then some (.lit '\x0c')
  else if c == 'v' then some (.lit '\x0b')
  else if c == '0' then some (.lit '\x00')
  else if c.isAlpha || c.isDigit then none
  else some (.lit c)

def classEscape (c : Char) : Option CI :=
  if c == 'd' then some .dig
  else if c == 'D' then some .ndig
  else if c == 'w' then some .wrd
  else if c == 'W' then some .nwrd
  else if c == 's' then some .spc
  else if c == 'S' then some .nspc
  else if c == 'n' then some (.ch '\n')
  else if c == 't' then some (.ch '\t')
  else if c == 'r' then some (.ch '\r')
  else if c == 'f' then some (.ch '\x0c')
  else if c == 'v' then some (.ch '\x0b')
  else if c == 'b' then some (.ch '\x08')
  else if c == '0' then some (.ch '\x00')
  else if c.isAlpha || c.isDigit then none
  else some (.ch c)

/-- Body of a character class, after the optional leading `^`. -/
def parseClassItems : List Char → Option (List CI × List Char)
  | [] => none
  | ']' :: rest => some ([], rest)
  | '\\' :: c :: rest => do
    let item ← classEscape c
    let (items, rest2) ← parseClassItems rest
    some (item :: items, rest2)
  | a :: '-' :: ']' :: rest => some ([.ch a, .ch '-'], rest)
  | _ :: '-' :: '\\' :: _ => none
  | a :: '-' :: b :: rest => do
    let (items, rest2) ← parseClassItems rest
    some (.range a b :: items, rest2)
  | a :: rest => do
    let (items, rest2) ← parseClassItems rest
    some (.ch a :: items, rest2)

/-- Nonterminal selector for the pattern grammar: alternation, sequence,
quantified atom, atom.  (A single recursive function over an explicit
nonterminal keeps the recursion structural in its fuel, so that concrete
patterns evaluate definitionally.) -/
inductive PMode where
  | alternation
  | sequence
  | quantified
  | atom

def parseRE : Nat → PMode → List Char → Nat → Option (RE × List Char × Nat)
  | 0, _, _, _ => none
  | fuel+1, .alternation, cs, g => do
    let (a, rest, g1) ← parseRE fuel .sequence cs g
    match rest with
    | '|' :: rest2 => do
      let (b, rest3, g2) ← parseRE fuel .alternation rest2 g1
      some (.alt a b, rest3, g2)
    | _ => some (a, rest, g1)
  | fuel+1, .sequence, cs, g =>
    match cs with
    | [] => some (.eps, [], g)
    | ')' :: _ => some (.eps, cs, g)
    | '|' :: _ => some (.eps, cs, g)
    | _ => do
      let (a, rest, g1) ← parseRE fuel .quantified cs g
      let (b, rest2, g2) ← parseRE fuel .sequence rest g1
      some (.seq a b, rest2, g2)
  | fuel+1, .quantified, cs, g => do
    let (a, rest, g1) ← parseRE fuel .atom cs g
    match rest with
    | '*' :: '?' :: _ => none
    | '+' :: '?' :: _ => none
    | '?' :: '?' :: _ => none
    | '*' :: rest2 => some (.star a, rest2, g1)
    | '+' :: rest2 => some (.seq a (.star a), rest2, g1)
    | '?' :: rest2 => some (.alt a .eps, rest2, g1)
    | _ => some (a, rest, g1)
  | fuel+1, .atom, cs, g =>
    match cs with
    | [] => none
    | '(' :: '?' :: ':' :: rest => do
      let (r, rest2, g1) ← parseRE fuel .alternation rest g
      match rest2 with
      | ')' :: rest3 => some (r, rest3, g1)
      | _ => none
    | '(' :: '?' :: _ => none
    | '(' :: rest => do
      let (r, rest2, g1) ← parseRE fuel .alternation rest (g + 1)
      match rest2 with
      | ')' :: rest3 => some (.group g r, rest3, g1)
      | _ => none
    | '[' :: '^' :: rest => do
      let (items, rest2) ← parseClassItems rest
      some (.cls true items, rest2, g)
    | '[' :: rest => do
      let (items, rest2) ← parseClassItems rest
      some (.cls false items, rest2, g)
    | ['\\'] => none
    | '\\' :: c :: rest => (rootEscape c).map (fun r => (r, rest, g))
    | '.' :: rest => some (.dot, rest, g)
    | '^' :: rest => some (.bol, rest, g)
    | '$' :: rest => some (.eol, rest, g)
    | '*' :: _ => none
    | '+' :: _ => none
    | '?' :: _ => none
    | ')' :: _ => none
    | '|' :: _ => none
    | c :: rest => some (.lit c, rest, g)

/-- Model of `new RegExp(pattern)`: the compiled expression and its number
of capturing groups, or `none` when the constructor throws (or the pattern
falls outside the embedded syntax subset). -/
def parseRegex (pattern : String) : Option (RE × Nat) :=
  let cs := pattern.toList
  match parseRE (3 * cs.length + 9) .alternation cs 1 with
  | some (r, [], g) => some (r, g - 1)
  | _ => none

def validFlags (flags : String) : Bool :=
  flags.toList.all (fun c => "dgimsuy".toList.contains c)

/-! ### Regex safety checking (src/validator.ts, lines 173-224) -/

/-- Default constants (src/types.ts `DEFAULTS`). -/
def REGEX_MAX_LENGTH : Nat := 500
def MAX_PAGES : Nat := 1
def OVERALL_TIMEOUT_MS : Nat := 300000

/-- Literal-character sequence regex (used for the fully escaped dangerous
shapes `\(\.\*\)\+` and `\(\.\+\)\+`, which match a literal substring). -/
def litSeq (s : String) : RE := s.toList.foldr (fun c r => .seq (.lit c) r) .eps

/-- The fixed catalogue of catastrophic-backtracking shapes from
`validateRegexPattern`, hand-translated from the five regex literals:
`/\(\.\*\)\+/`, `/\(\.\+\)\+/`, `/\([^)]*\+\)[^)]*\+/`,
`/\([^)]*\*\)[^)]*\*/`, `/\(\[.*\]\+\)\+/`. -/
def dangerousPatterns : List RE :=
  [ litSeq ("(.*)+"),
    litSeq ("(.+)+"),
    .seq (.lit '(') (.seq (.star (.cls true [.ch ')'])) (.seq (.lit '+')
      (.seq (.lit ')') (.seq (.star (.cls true [.ch ')'])) (.seq (.lit '+') .eps))))),
    .seq (.lit '(') (.seq (.star (.cls true [.ch ')'])) (.seq (.lit '*')
      (.seq (.lit ')') (.seq (.star (.cls true [.ch ')'])) (.seq (.lit '*') .eps))))),
    .seq (.lit '(') (.seq (.lit '[') (.seq (.star .dot)
      (.seq (.lit ']') (.seq (.lit '+') (.seq (.lit ')') (.seq (.lit '+') .eps)))))) ]

def hasDangerousShape (pattern : String) : Bool :=
  dangerousPatterns.any (fun re => regexTestRE re pattern)

/-- `validateRegexPattern(pattern, path)` (src/validator.ts, lines 173-207):
length cap with early return, then at most one dangerous-shape message,
then a compile check. -/
def validateRegexPattern (pattern path : String) : List String :=
  if pattern.length > REGEX_MAX_LENGTH then
    ["Regex pattern at " ++ path ++ " exceeds maximum length of 500 characters"]
  else
    (if hasDangerousShape pattern then
      ["Regex pattern at " ++ path ++ " contains potentially dangerous pattern that could cause performance issues"]
     else []) ++
    (match parseRegex pattern with
     | some _ => []
     | none => ["Regex pattern at " ++ path ++ " is invalid"])

/-- `isRegexSafe(pattern)` (src/validator.ts, lines 213-224). -/
def isRegexSafe (pattern : String) : Bool :=
  if pattern.length > REGEX_MAX_LENGTH then false
  else
    match parseRegex pattern with
    | none => false
    | some _ => (validateRegexPattern pattern ("")).isEmpty

/-! ### Number formatting and parsing (host `String()`, `parseInt`, `parseFloat`) -/

def natDigitChar (n : Nat) : Char := Char.ofNat (48 + n % 10)

def natToChars : Nat → Nat → List Char
  | 0, _ => []
  | fuel+1, n => if n < 10 then [natDigitChar n] else natToChars fuel (n / 10) ++ [natDigitChar (n % 10)]

def natToString (n : Nat) : String := .mk (natToChars (n + 1) n)

def intToString (i : Int) : String :=
  if i < 0 then "-" ++ natToString i.natAbs else natToString i.natAbs

/-- Truncation toward zero of a rational (this is plain `Int` division of
numerator by denominator, which truncates toward zero in Lean). -/
def ratTrunc (q : Rat) : Int := q.num / (q.den : Int)

/-- Product of rationals, via `mkRat` so concrete values reduce. -/
def ratMul (a b : Rat) : Rat := mkRat (a.num * b.num) (a.den * b.den)

/-- Difference of rationals, via `mkRat` so concrete values reduce. -/
def ratSub (a b : Rat) : Rat := mkRat (a.num * (b.den : Int) - b.num * (a.den : Int)) (a.den * b.den)

/-- Fractional digits of `0 ≤ f < 1`, up to 20 places (exact for every value
the embedded code constructs from decimal input; core `Rat` operations are
used so concrete values reduce definitionally). -/
def fracChars : Nat → Rat → List Char
  | 0, _ => []
  | fuel+1, f =>
    if f == 0 then []
    else
      let f10 := ratMul f (mkRat 10 1)
      let d := ratTrunc f10
      natDigitChar d.toNat :: fracChars fuel (ratSub f10 (mkRat d 1))

def ratToStringNN (q : Rat) : String :=
  let ip := ratTrunc q
  let fr := ratSub q (mkRat ip 1)
  natToString ip.toNat ++ (if fr == 0 then "" else "." ++ String.mk (fracChars 20 fr))

/-- JavaScript number-to-string on the finite decimals this code produces. -/
def ratToString (q : Rat) : String :=
  if q < 0 then "-" ++ ratToStringNN (Rat.neg q) else ratToStringNN q

/-- Longest digit prefix and the rest. -/
def takeDigits (cs : List Char) : List Char × List Char :=
  splitAtChar cs (fun c => !c.isDigit)

def digitsToNat (cs : List Char) : Nat := cs.foldl (fun a c => a * 10 + (c.toNat - 48)) 0

/-- `parseInt(s, 10)`: optional sign, then the longest digit prefix;
`none` models `NaN`. -/
def parseIntJS (s : String) : Option Int :=
  let cs := dropLeadingSpace s.toList
  let signNeg := cs.head? == some '-'
  let cs2 := match cs with
    | '-' :: r => r
    | '+' :: r => r
    | r => r
  let (ds, _) := takeDigits cs2
  if ds.isEmpty then none
  else some ((if signNeg then -1 else 1) * (digitsToNat ds : Int))

/-- `parseFloat(s)` restricted to sign/digits/point (its callers strip every
other character first, so no exponent can occur); `none` models `NaN`. -/
def parseFloatJS (s : String) : Option Rat :=
  let cs := dropLeadingSpace s.toList
  let signNeg := cs.head? == some '-'
  let cs2 := match cs with
    | '-' :: r => r
    | '+' :: r => r
    | r => r
  let (ipart, r1) := takeDigits cs2
  match r1 with
  | '.' :: r2 =>
    let (fpart, _) := takeDigits r2
    if ipart.isEmpty && fpart.isEmpty then none
    else
      let k := fpart.length
      let mag := mkRat (digitsToNat ipart * 10 ^ k + digitsToNat fpart) (10 ^ k)
      some (if signNeg then Rat.neg mag else mag)
  | _ =>
    if ipart.isEmpty then none
    else
      let mag := mkRat (digitsToNat ipart) 1
      some (if signNeg then Rat.neg mag else mag)

/-! ### JavaScript string conversion of values -/

mutual

def jsToString : TVal → String
  | .undef => "undefined"
  | .null => "null"
  | .bool true => "true"
  | .bool false => "false"
  | .num q => ratToString q
  | .str s => s
  | .arr l => jsToStringArr l
  | .obj _ => "[object Object]"

/-- `Array.prototype.toString` = `join(',')`; `null`/`undefined` elements
render as the empty string. -/
def jsToStringArr : List TVal → String
  | [] => ""
  | v :: rest =>
    (match v with
     | .undef => ""
     | .null => ""
     | w => jsToString w) ++ (if rest.isEmpty then "" else ",") ++ jsToStringArr rest

end

/-! ### The typed template data model (src/types.ts) -/

/-- `TransformParams` (src/types.ts).  The source field `end` is called
`stop` here because `end` is reserved in Lean. -/
structure TransformParams where
  pattern : Option String
  flags : Option String
  replacement : Option String
  group : Option Rat
  separator : Option String
  start : Option Rat
  stop : Option Rat

structure Transform where
  type : String
  params : Option TransformParams

/-- `FieldDefinition` (src/types.ts); recursive through `nested`. -/
inductive FieldDefinition where
  | mk (name : String) (selector : String) (type : Option String) (attr : Option String)
      (transforms : Option (List Transform)) (fallback : Option TVal)
      (nested : Option (List FieldDefinition))

def FieldDefinition.name : FieldDefinition → String
  | .mk n _ _ _ _ _ _ => n

def FieldDefinition.selector : FieldDefinition → String
  | .mk _ s _ _ _ _ _ => s

def FieldDefinition.type : FieldDefinition → Option String
  | .mk _ _ t _ _ _ _ => t

def FieldDefinition.attr : FieldDefinition → Option String
  | .mk _ _ _ a _ _ _ => a

def FieldDefinition.transforms : FieldDefinition → Option (List Transform)
  | .mk _ _ _ _ t _ _ => t

def FieldDefinition.fallback : FieldDefinition → Option TVal
  | .mk _ _ _ _ _ f _ => f

def FieldDefinition.nested : FieldDefinition → Option (List FieldDefinition)
  | .mk _ _ _ _ _ _ n => n

structure PaginationConfig where
  nextSelector : String
  maxPages : Option Nat
  waitMs : Option Nat

structure TemplateOptions where
  waitForSelector : Option String
  waitMs : Option Nat
  enableJs : Option Bool
  timeout : Option Nat

structure Template where
  name : String
  description : Option String
  container : String
  fields : List FieldDefinition
  pagination : Option PaginationConfig
  options : Option TemplateOptions

def FIELD_TYPES : List String :=
  ["text", "number", "currency", "date", "boolean", "list", "nested", "html", "url"]

def TRANSFORM_TYPES : List String :=
  ["trim", "lowercase", "uppercase", "replace", "regex", "split", "slice", "parseInt", "parseFloat"]

def TRANSFORMS_REQUIRING_PATTERN : List String := ["replace", "regex"]

def TRANSFORMS_REQUIRING_SEPARATOR : List String := ["split"]

def RETRYABLE_ERRORS : List String :=
  ["net::ERR_CONNECTION_RESET", "net::ERR_CONNECTION_REFUSED", "net::ERR_NAME_NOT_RESOLVED",
   "net::ERR_TIMED_OUT", "net::ERR_CONNECTION_TIMED_OUT", "Navigation timeout", "Timeout",
   "ECONNRESET", "ETIMEDOUT"]

/-! ### Transform pipeline (`applyTransforms`, src/extractor.ts lines 476-544) -/

/-- A JavaScript number used as an array index: integral and non-negative,
anything else reads `undefined`. -/
def idxOfRat (q : Rat) : Option Nat :=
  if q.den == 1 && 0 ≤ q.num then some q.num.toNat else none

/-- `String.prototype.replace` with a compiled regex.  `$`-substitutions in
the replacement are inserted literally (the repository never uses them). -/
def jsReplaceGo (ci : Bool) (re : RE) (ng : Nat) (global : Bool) (repl : String) :
    Nat → List Char → List Char
  | 0, cs => cs
  | fuel+1, cs =>
    match firstMatchPos ci re ng cs with
    | none => cs
    | some (a, b, _) =>
      let pre := cs.take a
      if global then
        if b == a then
          match cs.drop a with
          | [] => pre ++ repl.toList
          | c :: rest => pre ++ repl.toList ++ c :: jsReplaceGo ci re ng global repl fuel rest
        else pre ++ repl.toList ++ jsReplaceGo ci re ng global repl fuel (cs.drop b)
      else pre ++ repl.toList ++ cs.drop b

def jsReplace (ci : Bool) (re : RE) (ng : Nat) (global : Bool) (s repl : String) : String :=
  .mk (jsReplaceGo ci re ng global repl (s.toList.length + 2) s.toList)

def defaultTP : TransformParams := ⟨none, none, none, none, none, none, none⟩

/-- One `switch` arm of `applyTransforms` (src/extractor.ts lines 482-541).
An unknown transform type falls through the `switch` and leaves the value
unchanged; invalid regex patterns are caught and leave it unchanged. -/
def applyTransform (result : TVal) (transform : Transform) : TVal :=
  let params := transform.params.getD defaultTP
  if transform.type == "trim" then .str (jsTrim (jsToString result))
  else if transform.type == "lowercase" then .str (jsToLower (jsToString result))
  else if transform.type == "uppercase" then .str (jsToUpper (jsToString result))
  else if transform.type == "replace" then
    -- `new RegExp(undefined, flags)` is the empty pattern, modelled by ""
    let pattern := params.pattern.getD ""
    let flags := match params.flags with
      | some f => if f != "" then f else "g"
      | none => "g"
    let replacement := params.replacement.getD ""
    if !validFlags flags then result
    else
      match parseRegex pattern with
      | none => result
      | some (re, ng) =>
        .str (jsReplace (flags.toList.contains 'i') re ng (flags.toList.contains 'g')
          (jsToString result) replacement)
  else if transform.type == "regex" then
    let pattern := params.pattern.getD ""
    let group := params.group.getD 0   -- `(params.group as number) || 0`
    match parseRegex pattern with
    | none => result
    | some (re, ng) =>
      match firstMatchArr re ng (jsToString result) with
      | none => result
      | some arr =>
        match idxOfRat group with
        | none => result
        | some i =>
          match arr.get? i with
          | some (some s) => .str s
          | _ => result   -- out of bounds or non-participating group: `?? result`
  else if transform.type == "split" then
    let separator := match params.separator with
      | some s => if s != "" then s else ","
      | none => ","   -- `(params.separator as string) || ','`
    .arr ((jsSplit (jsToString result) separator).map .str)
  else if transform.type == "slice" then
    -- `(params.start as number) || 0`, then ToInteger inside `slice`
    let start := ratTrunc (params.start.getD 0)
    .str (jsSlice (jsToString result) start (params.stop.map ratTrunc))
  else if transform.type == "parseInt" then
    let cleaned := String.mk ((jsToString result).toList.filter (fun c => c.isDigit || c == '-'))
    match parseIntJS cleaned with
    | none => .num 0   -- `isNaN(parsed) ? 0 : parsed`
    | some n => .num (mkRat n 1)
  else if transform.type == "parseFloat" then
    let cleaned := String.mk ((jsToString result).toList.filter (fun c => c.isDigit || c == '.' || c == '-'))
    match parseFloatJS cleaned with
    | none => .num 0
    | some q => .num q
  else result

/-- `applyTransforms` folds the declared list left to right. -/
def applyTransforms (value : TVal) (transforms : List Transform) : TVal :=
  transforms.foldl applyTransform value

/-! ### The rendered document and the host CSS engine

`document.querySelectorAll`, `Element.querySelector`, `parentElement`,
`getAttribute`, `innerHTML` and `textContent` belong to the page-automation
provider's evaluation context (an external collaborator).  The document is
a tree of elements; selector *semantics* stays abstract: the `Host`
capability says which selector strings are syntactically valid (an invalid
one makes `querySelector(All)` throw) and which elements a valid selector
matches.  Traversal order (document order) and parent tracking are part of
the embedding. -/

inductive Elem where
  | mk (attrs : List (String × String)) (text : String) (inner : String) (kids : List Elem)

def Elem.attrs : Elem → List (String × String)
  | .mk a _ _ _ => a

def Elem.text : Elem → String
  | .mk _ t _ _ => t

def Elem.inner : Elem → String
  | .mk _ _ i _ => i

def Elem.kids : Elem → List Elem
  | .mk _ _ _ k => k

/-- `getAttribute`: `none` models the `null` of an absent attribute. -/
def getAttr (e : Elem) (name : String) : Option String :=
  (e.attrs.find? (fun p => p.1 == name)).map (fun p => p.2)

mutual

/-- Strict descendants of an element in document order, each paired with
its `parentElement`. -/
def elemDescendants : Elem → List (Elem × Option Elem)
  | .mk a t i kids => kidsDescendants (.mk a t i kids) kids

def kidsDescendants (parent : Elem) : List Elem → List (Elem × Option Elem)
  | [] => []
  | k :: ks => (k, some parent) :: elemDescendants k ++ kidsDescendants parent ks

end

/-- Descendants of the whole document: the document node is not an element,
so top-level elements have `parentElement = null`. -/
def docKidsDescendants : List Elem → List (Elem × Option Elem)
  | [] => []
  | k :: ks => (k, none) :: elemDescendants k ++ docKidsDescendants ks

def docDescendants : Elem → List (Elem × Option Elem)
  | .mk _ _ _ kids => docKidsDescendants kids

/-- The host capabilities the evaluation context draws on: CSS selector
validity and matching, `new Date(...)` parsing (ISO string when valid),
`new URL(rel, base)` resolution, and `window.location.href`. -/
structure Host where
  cssValid : String → Bool
  cssMatches : String → Elem → Bool
  dateParse : String → Option String
  resolveUrl : String → String → Option String
  locationHref : String

/-- `root.querySelectorAll(sel)` (with parents): throws on an invalid
selector, else all matching strict descendants in document order. -/
def querySelectorAllE (h : Host) (root : Elem) (sel : String) :
    Except Unit (List (Elem × Option Elem)) :=
  if h.cssValid sel then .ok ((elemDescendants root).filter (fun p => h.cssMatches sel p.1))
  else .error ()

/-- `root.querySelector(sel)`: throws on an invalid selector, else the
first matching strict descendant. -/
def querySelectorE (h : Host) (root : Elem) (sel : String) :
    Except Unit (Option (Elem × Option Elem)) :=
  if h.cssValid sel then .ok ((elemDescendants root).find? (fun p => h.cssMatches sel p.1))
  else .error ()

/-! ### Type coercion and field extraction (src/extractor.ts lines 409-474, 546-580) -/

/-- `coerceType` (src/extractor.ts lines 546-580). -/
def coerceType (h : Host) (value : TVal) (type : Option String) : TVal :=
  match type with
  | none => value
  | some t =>
    if t == "text" then value
    else if t == "number" || t == "currency" then
      let cleaned := String.mk ((jsToString value).toList.filter (fun c => c.isDigit || c == '.' || c == '-'))
      match parseFloatJS cleaned with
      | none => .num 0
      | some q => .num q
    else if t == "date" then
      match h.dateParse (jsToString value) with
      | none => .null
      | some iso => .str iso
    else if t == "boolean" then .bool (truthy value)
    else if t == "url" then
      let strValue := jsToString value
      if strValue != "" && !jsStartsWith strValue ("http") then
        match h.resolveUrl strValue h.locationHref with
        | none => .str strValue
        | some href => .str href
      else .str strValue
    else value

/-- The element-resolution step of `extractField` (src/extractor.ts lines
440-448): a selector starting with the sibling marker `~ ` is resolved
against the container's parent (`parent?.querySelector(…) || null`, which
is `null` without a lookup when there is no parent), any other selector
against the container itself. -/
def resolveElement (h : Host) (container : Elem) (parent : Option Elem) (fsel : String) :
    Except Unit (Option (Elem × Option Elem)) :=
  if jsStartsWith fsel ("~ ") then
    match parent with
    | none => .ok none
    | some par => querySelectorE h par (String.mk (fsel.toList.drop 2))
  else querySelectorE h container fsel

mutual

/-- `extractField(container, field)` (src/extractor.ts lines 409-474),
evaluated against `container` whose `parentElement` is `parent`.  The
`Except` error is a thrown exception (an invalid selector handed to
`querySelector(All)`); the *caller* decides whether it is caught. -/
def extractField (h : Host) (container : Elem) (parent : Option Elem)
    (field : FieldDefinition) : Except Unit TVal :=
  match field with
  | .mk _fname fsel ftype fattr ftransforms ffallback fnested =>
    match fnested with
    | some nl => do
      -- nested fields: one sub-record per matched element; NO per-field
      -- catch inside this loop, errors propagate to the top-level field
      let elements ← querySelectorAllE h container fsel
      let nestedItems ← elements.mapM
        (fun ep => (buildNestedRecord h nl ep.1 ep.2 []).map (fun kvs => TVal.obj kvs))
      .ok (.arr nestedItems)
    | none => do
      let elOpt ← resolveElement h container parent fsel
      match elOpt with
      | none => .ok (ffallback.getD .null)   -- `field.fallback ?? null`
      | some ep =>
        let element := ep.1
        let value0 : TVal :=
          match fattr with
          | some a =>
            if a != "" then .str ((getAttr element a).getD "")   -- `getAttribute(...) || ''`
            else if ftype == some ("html") then .str element.inner
            else .str (jsTrim element.text)
          | none =>
            if ftype == some ("html") then .str element.inner
            else .str (jsTrim element.text)   -- `textContent?.trim() || ''`
        let value1 :=
          match ftransforms with
          | some ts => applyTransforms value0 ts
          | none => value0
        .ok (coerceType h value1 ftype)

/-- The loop `field.nested.forEach(nf => nested[nf.name] = extractField(el, nf))`:
sequential property assignment into one sub-record. -/
def buildNestedRecord (h : Host) (fs : List FieldDefinition) (el : Elem)
    (elParent : Option Elem) (acc : List (String × TVal)) :
    Except Unit (List (String × TVal)) :=
  match fs with
  | [] => .ok acc
  | nf :: rest => do
    let v ← extractField h el elParent nf
    buildNestedRecord h rest el elParent (objSet acc (FieldDefinition.name nf) v)

end

/-- The value stored for one field: the per-field `try/catch` of
src/extractor.ts lines 394-404 — a field whose extraction throws gets
`fallback ?? null`. -/
def fieldOutcome (h : Host) (container : Elem) (parent : Option Elem)
    (f : FieldDefinition) : TVal :=
  match extractField h container parent f with
  | .ok v => v
  | .error _ => (FieldDefinition.fallback f).getD .null

/-- One record per container: `fields.forEach(field => item[field.name] = …)`,
so extraction continues with the next field whatever the previous one did. -/
def buildItem (h : Host) (fields : List FieldDefinition) (container : Elem)
    (parent : Option Elem) : List (String × TVal) :=
  fields.foldl
    (fun item f => objSet item (FieldDefinition.name f) (fieldOutcome h container parent f))
    []

/-- Errors `extractPage` can reject with: the `UNSAFE_REGEX`
`ExtractionError` of the safety gate, or a host-side evaluation failure. -/
inductive PageErr where
  | unsafeRegex (fieldName pattern : String)
  | hostError (msg : String)

/-- The inner loop of the safety gate: `field.transforms?.map(t => …)`
(src/extractor.ts lines 362-371) — throws at the first transform whose
`params?.pattern` is truthy and fails `isRegexSafe`. -/
def checkTransforms (fname : String) : List Transform → Except PageErr Unit
  | [] => .ok ()
  | t :: rest =>
    match t.params with
    | none => checkTransforms fname rest
    | some ps =>
      match ps.pattern with
      | none => checkTransforms fname rest
      | some p =>
        if p != "" && !isRegexSafe p then .error (.unsafeRegex fname p)
        else checkTransforms fname rest

/-- The safety gate over `template.fields.map(field => …)`: note that it
walks each field's own `transforms` only — `nested` is copied through by
the object spread without being re-checked. -/
def checkFieldPatterns : List FieldDefinition → Except PageErr Unit
  | [] => .ok ()
  | f :: rest => do
    (match FieldDefinition.transforms f with
     | none => .ok ()
     | some ts => checkTransforms (FieldDefinition.name f) ts)
    checkFieldPatterns rest

/-- `extractPage` (src/extractor.ts lines 354-592): re-validate regex
patterns *before* anything is sent to the evaluation context, then run the
extraction procedure over every container matched in the document. -/
def extractPage (h : Host) (doc : Elem) (template : Template) : Except PageErr (List TVal) := do
  checkFieldPatterns template.fields
  if h.cssValid template.container then
    .ok (((docDescendants doc).filter (fun p => h.cssMatches template.container p.1)).map
      (fun p => TVal.obj (buildItem h template.fields p.1 p.2)))
  else
    -- `document.querySelectorAll` throws inside the evaluation context and
    -- the rejection surfaces from `page.evaluate`
    .error (.hostError ("SyntaxError: invalid container selector"))

/-! ### The extraction orchestrator (src/extractor.ts lines 201-349)

`extractWithBrowser` drives a live page session: navigation, readiness
waits, the overall-timeout budget, and the pagination loop.  The outcomes
of the awaited host calls are supplied per iteration by an environment
(`NavEnv` for the pre-loop phase, `PageEnv` for the loop): the abort-signal
state at each loop entry, the result of `extractPage` on the page's current
view, the rolling timeout check after each page, whether
`page.$(nextSelector)` finds the control (or throws), and whether
activating it succeeds. -/

/-- `ExtractionError` as the orchestrator observes it: its `code` and
`recoverable` flag (message and context carry no control flow). -/
structure OrchErr where
  code : String
  recoverable : Bool

/-- `isRetryableError` (src/extractor.ts lines 47-50). -/
def isRetryableError (message : String) : Bool :=
  RETRYABLE_ERRORS.any (fun pat => strHas message pat)

def cancelledErr : OrchErr := ⟨"CANCELLED", false⟩

structure PageEnv where
  aborted : Nat → Bool
  pageOutcome : Nat → Except OrchErr (List TVal)
  timeoutAfter : Nat → Bool
  hasNext : Nat → Except Unit Bool
  clickOk : Nat → Bool

/-- The `do … while (pageCount < maxPages)` pagination loop
(src/extractor.ts lines 273-346), as a recursion over iterations `i` with
the running `pageCount` and accumulated `allData`.  The fuel only bounds
the recursion; the caller supplies `maxPages + 1`, which the loop can never
exhaust since every continuation step has incremented `pageCount` below
`maxPages`. -/
def pagLoop (env : PageEnv) (hasPagination : Bool) (maxPages : Nat) :
    Nat → Nat → List TVal → Nat → Except OrchErr (List TVal)
  | _, _, allData, 0 => .ok allData
  | i, pageCount, allData, fuel+1 =>
    -- cancellation check before each page
    if env.aborted i then
      if allData.isEmpty then .error cancelledErr else .ok allData
    else
      match env.pageOutcome i with
      | .error e => if allData.isEmpty then .error e else .ok allData
      | .ok pageData =>
        let allData := allData ++ pageData
        let pageCount := pageCount + 1
        -- (onPageExtracted and debug logging are pure side channels)
        if env.timeoutAfter i then .ok allData
        else if hasPagination && pageCount < maxPages then
          match env.hasNext i with
          | .error _ => .ok allData      -- `page.$` threw: catch, break with data
          | .ok false => .ok allData     -- next control absent: end of data
          | .ok true =>
            if env.clickOk i then
              -- `while` condition re-check after the body
              if pageCount < maxPages then pagLoop env hasPagination maxPages (i + 1) pageCount allData fuel
              else .ok allData
            else .ok allData             -- activation threw: catch, break with data
        else .ok allData

structure NavEnv where
  gotoError : Option String   -- `some message` = `page.goto` rejected
  blocking : Option String    -- `detectBlockingContent` result (warn only)
  waitSelectorOk : Bool       -- `waitForSelector` outcome when configured
  preTimeout : Bool           -- overall budget exceeded before the loop

/-- `extractWithBrowser` (src/extractor.ts lines 201-349). -/
def extractWithBrowser (nav : NavEnv) (env : PageEnv) (template : Template) :
    Except OrchErr (List TVal) :=
  match nav.gotoError with
  | some message => .error ⟨"PAGE_LOAD_FAILED", isRetryableError message⟩
  | none =>
    -- blocking-content detection never aborts; it only warns
    let waitSelFail :=
      match template.options with
      | some o =>
        match o.waitForSelector with
        | some s => s != "" && !nav.waitSelectorOk
        | none => false
      | none => false
    if waitSelFail then .error ⟨"SELECTOR_TIMEOUT", false⟩
    else if nav.preTimeout then .error ⟨"OVERALL_TIMEOUT", false⟩
    else
      let maxPages :=
        match template.pagination with
        | some p => p.maxPages.getD MAX_PAGES
        | none => MAX_PAGES
      pagLoop env template.pagination.isSome maxPages 0 0 [] (maxPages + 1)

/-! ### The template validator (src/validator.ts lines 14-168)

The validator receives whatever a template file parsed to, so it is
embedded over raw `TVal` values; a `.error` result is a thrown exception.
Property lookups that feed recursion (`field.nested`) are written as a
structural scan of the object's bindings — the same first-binding-wins
lookup `getProp` performs. -/

def getPropD : TVal → String → TVal
  | .obj kvs, k => (lookupKV kvs k).getD .undef
  | _, _ => (.undef)

/-- Optional chaining `recv?.[key]`: `undefined` on a nullish receiver
instead of a throw. -/
def optChain : TVal → String → TVal
  | .undef, _ => .undef
  | .null, _ => .undef
  | v, k => getPropD v k

/-- The `fieldPath` computation of `validateField` (src/validator.ts line
73): ``prefix ? `${prefix}.${field.name || idx}` : (field.name || `field[${idx}]`)``. -/
def fieldPathOf (nameV : TVal) (idx : Nat) (pre : String) : String :=
  if pre != "" then
    pre ++ "." ++ (if truthy nameV then jsToString nameV else natToString idx)
  else
    if truthy nameV then jsToString nameV else "field[" ++ natToString idx ++ "]"

/-- `validateTransform(transform, idx, fieldPath)` (src/validator.ts lines
118-168). -/
def validateTransform (transform : TVal) (tIdx : Nat) (fieldPath : String) :
    Except String (List String) := do
  let transformPath := fieldPath ++ ".transforms[" ++ natToString tIdx ++ "]"
  let ty ← getProp transform "type"
  if !truthy ty || typeofTV ty != "string" then
    .ok ["Transform at " ++ transformPath ++ " must have a type (string)"]
  else
    match ty with
    | .str tstr =>
      if !(TRANSFORM_TYPES.contains tstr) then
        .ok ["Transform at " ++ transformPath ++ " has invalid type \"" ++ tstr ++
          "\". Valid types: " ++ String.intercalate (", ") TRANSFORM_TYPES]
      else do
        let params ← getProp transform "params"
        let errs1 :=
          if TRANSFORMS_REQUIRING_PATTERN.contains tstr then
            let pat := optChain params "pattern"
            if !truthy pat || typeofTV pat != "string" then
              ["Transform \"" ++ tstr ++ "\" at " ++ transformPath ++ " requires params.pattern (string)"]
            else
              match pat with
              | .str p => validateRegexPattern p transformPath
              | _ => []
          else []
        let errs2 :=
          if TRANSFORMS_REQUIRING_SEPARATOR.contains tstr && truthy params then
            match getPropD params "separator" with
            | .undef => []
            | .str _ => []
            | _ => ["Transform \"" ++ tstr ++ "\" at " ++ transformPath ++ " params.separator must be a string"]
          else []
        let errs3 :=
          if tstr == "slice" && truthy params then
            (match getPropD params "start" with
             | .undef => []
             | .num _ => []
             | _ => ["Transform \"slice\" at " ++ transformPath ++ " params.start must be a number"]) ++
            (match getPropD params "end" with
             | .undef => []
             | .num _ => []
             | _ => ["Transform \"slice\" at " ++ transformPath ++ " params.end must be a number"])
          else []
        let errs4 :=
          if tstr == "regex" then
            match optChain params "group" with
            | .undef => []
            | .num q => if q < 0 then ["Transform \"regex\" at " ++ transformPath ++ " params.group must be a non-negative number"] else []
            | _ => ["Transform \"regex\" at " ++ transformPath ++ " params.group must be a non-negative number"]
          else []
        .ok (errs1 ++ errs2 ++ errs3 ++ errs4)
    | _ => .ok []   -- unreachable: guarded by the typeof test above

/-- `transforms.forEach(validateTransform)` with its running index. -/
def validateTransformList : List TVal → Nat → String → Except String (List String)
  | [], _, _ => .ok []
  | t :: rest, tIdx, fieldPath => do
    let e1 ← validateTransform t tIdx fieldPath
    let e2 ← validateTransformList rest (tIdx + 1) fieldPath
    .ok (e1 ++ e2)

mutual

/-- `validateField(field, idx, prefix)` (src/validator.ts lines 71-113);
the `prefix` parameter is called `pre` (reserved word in Lean). -/
def validateField (field : TVal) (idx : Nat) (pre : String) :
    Except String (List String) := do
  let nameV ← getProp field "name"   -- evaluated first, for `fieldPath`
  let fieldPath := fieldPathOf nameV idx pre
  let errs1 :=
    if !truthy nameV || typeofTV nameV != "string" then
      ["Field at index " ++ natToString idx ++ " must have a name (string)"]
    else []
  let selV ← getProp field "selector"
  let errs2 :=
    if !truthy selV || typeofTV selV != "string" then
      ["Field \"" ++ fieldPath ++ "\" must have a selector (string)"]
    else []
  let tyV ← getProp field "type"
  let errs3 :=
    match tyV with
    | .undef => []
    | .str t => if FIELD_TYPES.contains t then [] else
        ["Field \"" ++ fieldPath ++ "\" has invalid type \"" ++ t ++ "\". Valid types: " ++
          String.intercalate (", ") FIELD_TYPES]
    | v => ["Field \"" ++ fieldPath ++ "\" has invalid type \"" ++ jsToString v ++ "\". Valid types: " ++
        String.intercalate (", ") FIELD_TYPES]
  let trsV ← getProp field "transforms"
  let errs4 ←
    if truthy trsV then
      match trsV with
      | .arr ts => validateTransformList ts 0 fieldPath
      | _ => .ok ["Field \"" ++ fieldPath ++ "\" transforms must be an array"]
    else .ok []
  let errs5 ←
    match field with
    | .obj kvs => validateNestedProp kvs fieldPath
    | _ => .ok []   -- `field.nested` is undefined on non-objects: skipped
  .ok (errs1 ++ errs2 ++ errs3 ++ errs4 ++ errs5)

/-- The `field.nested` lookup (first binding wins) followed by the
`if (field.nested) { Array.isArray … forEach }` block. -/
def validateNestedProp : List (String × TVal) → String → Except String (List String)
  | [], _ => .ok []
  | (k, v) :: rest, fieldPath =>
    if k == "nested" then
      if !truthy v then .ok []
      else
        match v with
        | .arr l => validateFieldList l 0 fieldPath
        | _ => .ok ["Field \"" ++ fieldPath ++ "\" nested must be an array"]
    else validateNestedProp rest fieldPath

/-- `fields.forEach(validateField)` with its running index (used both for
the template's top-level fields, with prefix `""`, and for nested lists,
with the enclosing field path as prefix). -/
def validateFieldList : List TVal → Nat → String → Except String (List String)
  | [], _, _ => .ok []
  | f :: rest, nIdx, fieldPath => do
    let e1 ← validateField f nIdx fieldPath
    let e2 ← validateFieldList rest (nIdx + 1) fieldPath
    .ok (e1 ++ e2)

end

/-- The `template.fields?.forEach(...)` traversal (src/validator.ts lines
35-37): skips a nullish `fields`, walks an array, and throws a `TypeError`
when `fields` is any other truthy value (`forEach` is not a function
there). -/
def fieldsErrs : TVal → Except String (List String)
  | .undef => .ok []
  | .null => .ok []
  | .arr l => validateFieldList l 0 ""
  | _ => .error ("TypeError: template.fields?.forEach is not a function")

/-- The `if (template.pagination) { ... }` block (src/validator.ts lines
44-56). -/
def pagErrs (pagV : TVal) : List String :=
  if truthy pagV then
    (match getPropD pagV "nextSelector" with
     | .str s => if s != "" then [] else ["Pagination must have a nextSelector (string)"]
     | _ => ["Pagination must have a nextSelector (string)"]) ++
    (match getPropD pagV "maxPages" with
     | .undef => []
     | .num q => if q < 1 then ["Pagination maxPages must be a positive number"] else []
     | _ => ["Pagination maxPages must be a positive number"]) ++
    (match getPropD pagV "waitMs" with
     | .undef => []
     | .num q => if q < 0 then ["Pagination waitMs must be a non-negative number"] else []
     | _ => ["Pagination waitMs must be a non-negative number"])
  else []

/-- The `if (template.options) { ... }` block (src/validator.ts lines
58-63). -/
def optErrs (optV : TVal) : List String :=
  if truthy optV then
    (match getPropD optV "timeout" with
     | .undef => []
     | .num q => if q < 0 then ["Options timeout must be a non-negative number"] else []
     | _ => ["Options timeout must be a non-negative number"]) ++
    (match getPropD optV "waitMs" with
     | .undef => []
     | .num q => if q < 0 then ["Options waitMs must be a non-negative number"] else []
     | _ => ["Options waitMs must be a non-negative number"])
  else []

/-- `validateTemplate(template)` (src/validator.ts lines 14-66). -/
def validateTemplate (template : TVal) : Except String (List String) := do
  if !truthy template || typeofTV template != "object" then
    .ok ["Template must be an object"]
  else do
    let nameV ← getProp template "name"
    let errs1 :=
      if !truthy nameV || typeofTV nameV != "string" then
        ["Template must have a name (string)"]
      else []
    let contV ← getProp template "container"
    let errs2 :=
      if !truthy contV || typeofTV contV != "string" then
        ["Template must have a container selector (string)"]
      else []
    let fieldsV ← getProp template "fields"
    let errs3 :=
      match fieldsV with
      | .arr (_ :: _) => []
      | _ => ["Template must have at least one field"]
    let errs4 ← fieldsErrs fieldsV
    let pagV ← getProp template "pagination"
    let errs5 := pagErrs pagV
    let optV ← getProp template "options"
    let errs6 := optErrs optV
    .ok (errs1 ++ errs2 ++ errs3 ++ errs4 ++ errs5 ++ errs6)

/-! ### Typed templates as JavaScript values

The validator claims quantify over templates whose properties have the
types the `Template` interface declares (possibly with required properties
missing).  `VTemplate` is such a typed template; the injections below
render one as the `TVal` the validator receives.  An absent optional
property is injected as a binding to `undefined` — for every property
*read* (the only operation the validator performs) this is
indistinguishable from the property being absent, and it keeps the object
shape uniform. -/

structure VTemplate where
  name : Option String
  description : Option String
  container : Option String
  fields : Option (List FieldDefinition)
  pagination : Option PaginationConfig
  options : Option TemplateOptions

def paramsToTVal (p : TransformParams) : TVal :=
  .obj [("pattern", (p.pattern.map TVal.str).getD .undef),
        ("flags", (p.flags.map TVal.str).getD .undef),
        ("replacement", (p.replacement.map TVal.str).getD .undef),
        ("group", (p.group.map TVal.num).getD .undef),
        ("separator", (p.separator.map TVal.str).getD .undef),
        ("start", (p.start.map TVal.num).getD .undef),
        ("end", (p.stop.map TVal.num).getD .undef)]

def transformToTVal (t : Transform) : TVal :=
  .obj [("type", .str t.type),
        ("params", (t.params.map paramsToTVal).getD .undef)]

mutual

def fieldToTVal : FieldDefinition → TVal
  | .mk n s ty a tr fb ne =>
    .obj [("name", .str n),
          ("selector", .str s),
          ("type", (ty.map TVal.str).getD .undef),
          ("attr", (a.map TVal.str).getD .undef),
          ("transforms", (tr.map (fun ts => TVal.arr (ts.map transformToTVal))).getD .undef),
          ("fallback", fb.getD .undef),
          ("nested",
            match ne with
            | some l => TVal.arr (fieldListToTVal l)
            | none => .undef)]

def fieldListToTVal : List FieldDefinition → List TVal
  | [] => []
  | f :: rest => fieldToTVal f :: fieldListToTVal rest

end

def pagToTVal (p : PaginationConfig) : TVal :=
  .obj [("nextSelector", .str p.nextSelector),
        ("maxPages", (p.maxPages.map (fun n => TVal.num (mkRat n 1))).getD .undef),
        ("waitMs", (p.waitMs.map (fun n => TVal.num (mkRat n 1))).getD .undef)]

def optsToTVal (o : TemplateOptions) : TVal :=
  .obj [("waitForSelector", (o.waitForSelector.map TVal.str).getD .undef),
        ("waitMs", (o.waitMs.map (fun n => TVal.num (mkRat n 1))).getD .undef),
        ("enableJs", (o.enableJs.map TVal.bool).getD .undef),
        ("timeout", (o.timeout.map (fun n => TVal.num (mkRat n 1))).getD .undef)]

def vtemplateToTVal (t : VTemplate) : TVal :=
  .obj [("name", (t.name.map TVal.str).getD .undef),
        ("description", (t.description.map TVal.str).getD .undef),
        ("container", (t.container.map TVal.str).getD .undef),
        ("fields", (t.fields.map (fun l => TVal.arr (fieldListToTVal l))).getD .undef),
        ("pagination", (t.pagination.map pagToTVal).getD .undef),
        ("options", (t.options.map optsToTVal).getD .undef)]

/-! Structural validity of the typed pieces — the properties the validator
checks, expressed on the typed side. -/

/-- The pattern conditions `validateRegexPattern` enforces (its emptiness
does not depend on the diagnostic path). -/
def patternOk (p : String) : Bool :=
  p.length ≤ REGEX_MAX_LENGTH && !hasDangerousShape p && (parseRegex p).isSome

def transformValid (t : Transform) : Bool :=
  TRANSFORM_TYPES.contains t.type &&
  (if TRANSFORMS_REQUIRING_PATTERN.contains t.type then
    match t.params with
    | some ps =>
      match ps.pattern with
      | some p => p != "" && patternOk p
      | none => false
    | none => false
   else true) &&
  (if t.type == "regex" then
    match t.params with
    | some ps =>
      match ps.group with
      | some g => decide (0 ≤ g)
      | none => true
    | none => true
   else true)

mutual

def fieldValid : FieldDefinition → Bool
  | .mk n s ty _ tr _ ne =>
    n != "" && s != "" &&
    (match ty with
     | some t => FIELD_TYPES.contains t
     | none => true) &&
    (match tr with
     | some ts => ts.all transformValid
     | none => true) &&
    (match ne with
     | some l => fieldsValid l
     | none => true)

def fieldsValid : List FieldDefinition → Bool
  | [] => true
  | f :: rest => fieldValid f && fieldsValid rest

end

def pagValid (p : PaginationConfig) : Bool :=
  p.nextSelector != "" &&
  (match p.maxPages with
   | some n => decide (1 ≤ n)
   | none => true)

/-- The three top-level defects of claim C3, on the typed side. -/
def nameDefect (t : VTemplate) : Bool :=
  match t.name with
  | some s => s == ""
  | none => true

def containerDefect (t : VTemplate) : Bool :=
  match t.container with
  | some s => s == ""
  | none => true

def fieldsDefect (t : VTemplate) : Bool :=
  match t.fields with
  | some (_ :: _) => false
  | _ => true

/-! ### Concrete fixtures

A small concrete host, document, templates and orchestration environments
on which the theorems below are witnessed.  The host's CSS engine matches
an element when its `sel` attribute equals the selector, and rejects the
selector string `"#bad("` as syntactically invalid. -/

def hostW : Host :=
  { cssValid := fun s => s != "#bad(",
    cssMatches := fun sel e => getAttr e ("sel") == some sel,
    dateParse := fun _ => none,
    resolveUrl := fun _ _ => none,
    locationHref := "https://example.com/" }

def elH (t : String) : Elem := .mk [("sel", "h1")] t "" []

def itemW1 : Elem := .mk [("sel", ".item")] "" "" [elH ("Hello")]

def itemW2 : Elem := .mk [("sel", ".item")] "" "" []

def domW : Elem := .mk [] "" "" [itemW1, itemW2]

def tmplW : Template :=
  { name := "W", description := none, container := ".item",
    fields :=
      [.mk ("title") ("h1") none none none none none,
       .mk ("missing") (".absent") none none none (some (.str ("N/A"))) none,
       .mk ("broken") ("#bad(") none none none none none],
    pagination := none, options := none }

def rsW : List TVal :=
  [.obj [("title", .str ("Hello")), ("missing", .str ("N/A")), ("broken", .null)],
   .obj [("title", .null), ("missing", .str ("N/A")), ("broken", .null)]]

/-- A template whose only unsafe regex pattern sits in a *nested* field's
transforms (claim C4). -/
def tmplC4bad : Template :=
  { name := "C4", description := none, container := ".item",
    fields :=
      [.mk ("items") (".sub") none none none none
        (some [.mk ("t") ("x") none none
          (some [⟨"regex", some ⟨some ("(.*)+"), none, none, none, none, none, none⟩⟩])
          none none])],
    pagination := none, options := none }

/-- A template with an unsafe pattern in a top-level field's transforms. -/
def tmplC4top : Template :=
  { name := "C4w", description := none, container := ".item",
    fields :=
      [.mk ("price") (".p") none none
        (some [⟨"regex", some ⟨some ("(.+)+"), none, none, none, none, none, none⟩⟩])
        none none],
    pagination := none, options := none }

def recW : TVal := .obj [("title", .str ("Hello"))]

def navOk : NavEnv :=
  { gotoError := none, blocking := none, waitSelectorOk := true, preTimeout := false }

/-- Cancellation is signalled after the first page has been extracted. -/
def envC2 : PageEnv :=
  { aborted := fun i => i != 0,
    pageOutcome := fun _ => .ok [recW],
    timeoutAfter := fun _ => false,
    hasNext := fun _ => .ok true,
    clickOk := fun _ => true }

def tmplPaged : Template :=
  { name := "P", description := none, container := ".item",
    fields := [.mk ("title") ("h1") none none none none none],
    pagination := some { nextSelector := ".next", maxPages := some 5, waitMs := none },
    options := none }

/-- The pagination next-control is absent on the first page. -/
def envC8a : PageEnv :=
  { aborted := fun _ => false,
    pageOutcome := fun _ => .ok [recW],
    timeoutAfter := fun _ => false,
    hasNext := fun _ => .ok false,
    clickOk := fun _ => true }

/-- Activating the next control fails after the first page. -/
def envC8b : PageEnv :=
  { aborted := fun _ => false,
    pageOutcome := fun _ => .ok [recW],
    timeoutAfter := fun _ => false,
    hasNext := fun _ => .ok true,
    clickOk := fun _ => false }

/-- The first page extracts successfully but yields zero records, and
cancellation is signalled before the second page. -/
def envC10 : PageEnv :=
  { aborted := fun i => i != 0,
    pageOutcome := fun _ => .ok [],
    timeoutAfter := fun _ => false,
    hasNext := fun _ => .ok true,
    clickOk := fun _ => true }

/-- A typed template that is fully valid except that `name` is missing. -/
def vtmplC3 : VTemplate :=
  { name := none, description := none, container := some (".item"),
    fields := some [.mk ("title") ("h1") none none none none none],
    pagination := none, options := none }

/-- A raw template value whose `fields` is the number `5` (claim C7). -/
def rawTmplC7 : TVal :=
  .obj [("name", .str ("a")), ("container", .str ("b")), ("fields", .num 5)]

/-! ## Claims -/

/-- C6: `isRegexSafe` returns false for the patterns `(.*)+` and `(.+)+`,
returns true for the pattern `\d+`, and returns false for every pattern
whose length exceeds 500 characters regardless of the pattern's content. -/
theorem c6_isRegexSafe :
    isRegexSafe ("(.*)+") = false ∧ isRegexSafe ("(.+)+") = false ∧
    isRegexSafe ("\\d+") = true ∧
    (∀ pattern : String, 500 < pattern.length → isRegexSafe pattern = false) := by
  refine ⟨by rfl, by rfl, by rfl, ?_⟩
  intro p hp
  unfold isRegexSafe
  simp only [REGEX_MAX_LENGTH]
  rw [if_pos hp]

/-- Witness for C6 at a concrete 501-character pattern. -/
theorem c6_isRegexSafe_witness :
    500 < (String.mk (List.replicate 501 'a')).length ∧
    isRegexSafe (String.mk (List.replicate 501 'a')) = false := by
  have h : (String.mk (List.replicate 501 'a')).length = 501 := by
    show (List.replicate 501 'a').length = 501
    rw [List.length_replicate]
  exact ⟨by omega, c6_isRegexSafe.2.2.2 (String.mk (List.replicate 501 'a')) (by omega)⟩

/-- C9: `validateUrl` normalizes `"example.com"` to `"https://example.com/"`;
rejects empty and whitespace-only input with a message saying the URL is
empty; and rejects malformed input with an "Invalid URL" message. -/
theorem c9_validateUrl :
    validateUrl ("example.com") = ⟨true, some ("https://example.com/"), none⟩ ∧
    validateUrl ("") = ⟨false, none, some ("URL must be a non-empty string")⟩ ∧
    strHas ("URL must be a non-empty string") ("empty") = true ∧
    (∀ url : String, url ≠ "" → jsTrim url = "" →
      validateUrl url = ⟨false, none, some ("URL cannot be empty")⟩) ∧
    strHas ("URL cannot be empty") ("empty") = true ∧
    validateUrl ("not a valid url :::") = ⟨false, none, some ("Invalid URL format: Invalid URL")⟩ ∧
    strHas ("Invalid URL format: Invalid URL") ("Invalid URL") = true := by
  refine ⟨by rfl, by rfl, by rfl, ?_, by rfl, by rfl, by rfl⟩
  intro url h1 h2
  unfold validateUrl
  have hb : (url == "") = false := by simpa using h1
  rw [hb]
  simp only [Bool.false_eq_true, if_false, h2]
  rfl

/-- Witness for C9's whitespace-only case at the concrete input `"   "`. -/
theorem c9_validateUrl_witness :
    ("   " : String) ≠ "" ∧ jsTrim ("   ") = "" ∧
    validateUrl ("   ") = ⟨false, none, some ("URL cannot be empty")⟩ :=
  ⟨by decide, by rfl, c9_validateUrl.2.2.2.1 ("   ") (by decide) (by rfl)⟩

/-- C5: transforms are applied in declared order with the specified
semantics — `regex` with pattern `(\d+),(\d+)` and group 1 followed by
`parseInt` on `"$1,234.56"` yields 1 (the first captured group, not the
full numeric value); `slice(start=0, end=3)` on `"hello"` yields `"hel"`;
`parseFloat` on `"$12.50 USD"` yields 12.5; `parseInt` on unparsable input
yields 0 and in general always produces an integer, never `NaN`. -/
theorem c5_transform_semantics :
    applyTransforms (.str ("$1,234.56"))
        [⟨"regex", some ⟨some ("(\\d+),(\\d+)"), none, none, some 1, none, none, none⟩⟩,
         ⟨"parseInt", none⟩] = .num 1 ∧
    applyTransforms (.str ("hello"))
        [⟨"slice", some ⟨none, none, none, none, none, some 0, some 3⟩⟩] = .str ("hel") ∧
    applyTransforms (.str ("$12.50 USD")) [⟨"parseFloat", none⟩] = .num (mkRat 25 2) ∧
    applyTransforms (.str ("no digits here!")) [⟨"parseInt", none⟩] = .num 0 ∧
    (∀ v : TVal, ∃ n : Int, applyTransform v ⟨"parseInt", none⟩ = .num (mkRat n 1)) := by
  refine ⟨by rfl, by rfl, by rfl, by rfl, ?_⟩
  intro v
  unfold applyTransform
  simp only [String.reduceBEq, Bool.false_eq_true, if_false, if_true]
  cases h : parseIntJS (String.mk ((jsToString v).toList.filter (fun c => c.isDigit || c == '-'))) with
  | none => exact ⟨0, by simp [h]⟩
  | some n => exact ⟨n, by simp [h]⟩

/-- C8: when the pagination next-control selector matches no element on the
current page, the loop stops normally with the accumulated data (end of
data, not an error); and when activating the next control fails after at
least one page has been extracted, the orchestrator returns the records
gathered so far instead of raising. -/
theorem c8_pagination_stop (env : PageEnv) (maxPages i pageCount : Nat)
    (acc items : List TVal) (fuel : Nat)
    (hab : env.aborted i = false)
    (hpg : env.pageOutcome i = .ok items)
    (hto : env.timeoutAfter i = false)
    (hlt : pageCount + 1 < maxPages) :
    (env.hasNext i = .ok false →
      pagLoop env true maxPages i pageCount acc (fuel + 1) = .ok (acc ++ items)) ∧
    (env.hasNext i = .ok true → env.clickOk i = false →
      pagLoop env true maxPages i pageCount acc (fuel + 1) = .ok (acc ++ items)) := by
  constructor
  · intro hn
    simp [pagLoop, hab, hpg, hto, hlt, hn]
  · intro hn hc
    simp [pagLoop, hab, hpg, hto, hlt, hn, hc]

/-- Witness for C8 on concrete environments: the next control is absent
(`envC8a`), and activation fails (`envC8b`). -/
theorem c8_pagination_stop_witness :
    envC8a.aborted 0 = false ∧ envC8a.pageOutcome 0 = .ok [recW] ∧
    envC8a.hasNext 0 = .ok false ∧ envC8b.hasNext 0 = .ok true ∧ envC8b.clickOk 0 = false ∧
    pagLoop envC8a true 3 0 0 [] 4 = .ok [recW] ∧
    pagLoop envC8b true 3 0 0 [] 4 = .ok [recW] := by
  refine ⟨by rfl, by rfl, by rfl, by rfl, by rfl, ?_, ?_⟩
  · have h := (c8_pagination_stop envC8a 3 0 0 [] [recW] 3 (by rfl) (by rfl) (by rfl)
      (by omega)).1 (by rfl)
    simpa using h
  · have h := (c8_pagination_stop envC8b 3 0 0 [] [recW] 3 (by rfl) (by rfl) (by rfl)
      (by omega)).2 (by rfl) (by rfl)
    simpa using h

/-- C10: the criterion for returning a partial result instead of raising is
the number of accumulated records, not the number of processed pages — if
the first page extracts but yields zero records, a cancellation before the
next page raises `CANCELLED` and a later page's extraction error
propagates; once at least one record exists the same events return the
accumulated data. -/
theorem c10_record_count_criterion (env : PageEnv) (items0 : List TVal)
    (maxPages fuel : Nat) (e : OrchErr)
    (hab : env.aborted 0 = false)
    (hpg : env.pageOutcome 0 = .ok items0)
    (hto : env.timeoutAfter 0 = false)
    (hn : env.hasNext 0 = .ok true)
    (hc : env.clickOk 0 = true)
    (hm : 1 < maxPages) :
    (items0 = [] → env.aborted 1 = true →
      pagLoop env true maxPages 0 0 [] (fuel + 2) = .error cancelledErr) ∧
    (items0 = [] → env.aborted 1 = false → env.pageOutcome 1 = .error e →
      pagLoop env true maxPages 0 0 [] (fuel + 2) = .error e) ∧
    (items0 ≠ [] → env.aborted 1 = true →
      pagLoop env true maxPages 0 0 [] (fuel + 2) = .ok items0) ∧
    (items0 ≠ [] → env.aborted 1 = false → env.pageOutcome 1 = .error e →
      pagLoop env true maxPages 0 0 [] (fuel + 2) = .ok items0) := by
  refine ⟨?_, ?_, ?_, ?_⟩
  · intro hi hab1
    subst hi
    simp [pagLoop, hab, hpg, hto, hn, hc, hm, hab1]
  · intro hi hab1 hpg1
    subst hi
    simp [pagLoop, hab, hpg, hto, hn, hc, hm, hab1, hpg1]
  · intro hi hab1
    rcases items0 with _ | ⟨x, xs⟩
    · exact absurd rfl hi
    · simp [pagLoop, hab, hpg, hto, hn, hc, hm, hab1]
  · intro hi hab1 hpg1
    rcases items0 with _ | ⟨x, xs⟩
    · exact absurd rfl hi
    · simp [pagLoop, hab, hpg, hto, hn, hc, hm, hab1, hpg1]

/-- Witness for C10 on a concrete environment: page one succeeds with zero
records and cancellation arrives before page two — the loop raises
`CANCELLED` rather than returning an empty partial result. -/
theorem c10_record_count_criterion_witness :
    envC10.pageOutcome 0 = .ok [] ∧ envC10.aborted 1 = true ∧
    pagLoop envC10 true 3 0 0 [] 4 = .error cancelledErr := by
  refine ⟨by rfl, by rfl, ?_⟩
  exact (c10_record_count_criterion envC10 [] 3 2 ⟨"EVAL", false⟩ (by rfl) (by rfl) (by rfl)
    (by rfl) (by rfl) (by omega)).1 (by rfl) (by rfl)

/-- C2 (amended): once at least one record has been accumulated, every
subsequent failure mode — cancellation, overall timeout, pagination
failure, per-page extraction error — makes the pagination loop return the
records collected so far (possibly extended by later successful pages)
instead of raising; and cancellation requested after one page of records
makes `extractWithBrowser` resolve with exactly that page's records, never
raising.  (The function resolves with the bare record array; nothing
attaches `partial` or `pagesExtracted` metadata.) -/
theorem c2_partial_over_raise :
    (∀ (env : PageEnv) (hasPag : Bool) (maxPages i pageCount : Nat)
      (acc : List TVal) (fuel : Nat), acc ≠ [] →
      ∃ rest, pagLoop env hasPag maxPages i pageCount acc fuel = .ok (acc ++ rest)) ∧
    (∀ (nav : NavEnv) (env : PageEnv) (template : Template) (pag : PaginationConfig)
      (mp : Nat) (items : List TVal),
      nav.gotoError = none → template.options = none → nav.preTimeout = false →
      template.pagination = some pag → pag.maxPages = some mp → 1 < mp →
      env.aborted 0 = false → env.pageOutcome 0 = .ok items → items ≠ [] →
      env.timeoutAfter 0 = false → env.hasNext 0 = .ok true → env.clickOk 0 = true →
      env.aborted 1 = true →
      extractWithBrowser nav env template = .ok items) := by
  constructor
  · intro env hasPag maxPages i pageCount acc fuel
    induction fuel generalizing i pageCount acc with
    | zero => intro _; exact ⟨[], by simp [pagLoop]⟩
    | succ fuel ih =>
      intro hne
      have hemp : acc.isEmpty = false := by
        rcases acc with _ | ⟨x, xs⟩
        · exact absurd rfl hne
        · rfl
      cases hab : env.aborted i with
      | true => exact ⟨[], by simp [pagLoop, hab, hemp]⟩
      | false =>
        cases hpg : env.pageOutcome i with
        | error e => exact ⟨[], by simp [pagLoop, hab, hpg, hemp]⟩
        | ok items =>
          cases hto : env.timeoutAfter i with
          | true => exact ⟨items, by simp [pagLoop, hab, hpg, hto]⟩
          | false =>
            cases hpagB : hasPag with
            | false => exact ⟨items, by simp [pagLoop, hab, hpg, hto, hpagB]⟩
            | true =>
              by_cases hlt : pageCount + 1 < maxPages
              · cases hnx : env.hasNext i with
                | error u => exact ⟨items, by simp [pagLoop, hab, hpg, hto, hpagB, hlt, hnx]⟩
                | ok b =>
                  cases b with
                  | false => exact ⟨items, by simp [pagLoop, hab, hpg, hto, hpagB, hlt, hnx]⟩
                  | true =>
                    cases hck : env.clickOk i with
                    | false =>
                      exact ⟨items, by simp [pagLoop, hab, hpg, hto, hpagB, hlt, hnx, hck]⟩
                    | true =>
                      obtain ⟨rest, hr⟩ := ih (i + 1) (pageCount + 1) (acc ++ items)
                        (fun hcon => hne (List.append_eq_nil.mp hcon).1)
                      refine ⟨items ++ rest, ?_⟩
                      rw [List.append_assoc, hpagB] at hr
                      simp [pagLoop, hab, hpg, hto, hpagB, hlt, hnx, hck, hr]
              · exact ⟨items, by simp [pagLoop, hab, hpg, hto, hpagB, hlt]⟩
  · intro nav env template pag mp items hgoto hopts hpre hpag hmp hm hab0 hpg0 hne hto0 hn0 hc0 hab1
    obtain ⟨k, rfl⟩ : ∃ k, mp = k + 2 := ⟨mp - 2, by omega⟩
    have hemp : items.isEmpty = false := by
      rcases items with _ | ⟨x, xs⟩
      · exact absurd rfl hne
      · rfl
    have h12 : 1 < k + 2 := by omega
    unfold extractWithBrowser
    rw [hgoto, hopts]
    simp [pagLoop, hpag, hmp, hpre, hab0, hpg0, hto0, hn0, hc0, hab1, hemp, h12]

/-- Witness for C2 on a concrete run: one page of one record, cancellation
before the second page, result is exactly the first page's records. -/
theorem c2_partial_over_raise_witness :
    envC2.aborted 0 = false ∧ envC2.aborted 1 = true ∧ envC2.pageOutcome 0 = .ok [recW] ∧
    extractWithBrowser navOk envC2 tmplPaged = .ok [recW] := by
  refine ⟨by rfl, by rfl, by rfl, ?_⟩
  exact c2_partial_over_raise.2 navOk envC2 tmplPaged ⟨".next", some 5, none⟩ 5 [recW]
    (by rfl) (by rfl) (by rfl) (by rfl) (by rfl) (by omega) (by rfl) (by rfl)
    (List.cons_ne_nil recW []) (by rfl) (by rfl) (by rfl) (by rfl)

/-- Counterexample for C2 as stated: cancellation after one page of data
makes the orchestrator resolve with the plain record array — the resolved
value's `partial` and `pagesExtracted` properties are `undefined`, not
`true` and `1`; no `ExtractionResult`-shaped value is produced. -/
theorem c2_counterexample :
    extractWithBrowser navOk envC2 tmplPaged = .ok [recW] ∧
    getProp (.arr [recW]) ("partial") = .ok .undef ∧
    getProp (.arr [recW]) ("pagesExtracted") = .ok .undef ∧
    TVal.undef ≠ TVal.bool true :=
  ⟨by rfl, by rfl, by rfl, fun h => nomatch h⟩

/-- The inner safety gate either passes or rejects with an `UNSAFE_REGEX`
error naming its own field and an unsafe pattern. -/
theorem checkTransforms_shape (fname : String) (ts : List Transform) :
    checkTransforms fname ts = .ok () ∨
    ∃ p, checkTransforms fname ts = .error (.unsafeRegex fname p) ∧ isRegexSafe p = false := by
  induction ts with
  | nil => exact .inl rfl
  | cons t rest ih =>
    cases hps : t.params with
    | none =>
      have hstep : checkTransforms fname (t :: rest) = checkTransforms fname rest := by
        simp [checkTransforms, hps]
      rw [hstep]; exact ih
    | some ps =>
      cases hp : ps.pattern with
      | none =>
        have hstep : checkTransforms fname (t :: rest) = checkTransforms fname rest := by
          simp [checkTransforms, hps, hp]
        rw [hstep]; exact ih
      | some p =>
        cases hcond : (p != "" && !isRegexSafe p) with
        | true =>
          have hstep : checkTransforms fname (t :: rest) = .error (.unsafeRegex fname p) := by
            simp [checkTransforms, hps, hp, hcond]
          refine .inr ⟨p, hstep, ?_⟩
          have := (Bool.and_eq_true _ _).mp hcond
          simpa using this.2
        | false =>
          have hstep : checkTransforms fname (t :: rest) = checkTransforms fname rest := by
            simp [checkTransforms, hps, hp, hcond]
          rw [hstep]; exact ih

/-- If some transform in the list carries a present, unsafe pattern, the
inner gate does not pass. -/
theorem checkTransforms_fails (fname : String) (ts : List Transform)
    (hbad : ∃ t ∈ ts, ∃ ps, t.params = some ps ∧
      ∃ p, ps.pattern = some p ∧ p ≠ "" ∧ isRegexSafe p = false) :
    checkTransforms fname ts ≠ .ok () := by
  induction ts with
  | nil => rcases hbad with ⟨t, ht, _⟩; exact absurd ht (List.not_mem_nil t)
  | cons t rest ih =>
    rcases hbad with ⟨t0, ht0, ps0, hps0, p0, hp0, hpne, hpuns⟩
    rcases List.mem_cons.mp ht0 with rfl | htail
    · have hcond : (p0 != "" && !isRegexSafe p0) = true := by simp [hpne, hpuns]
      have hstep : checkTransforms fname (t0 :: rest) = .error (.unsafeRegex fname p0) := by
        simp [checkTransforms, hps0, hp0, hcond]
      rw [hstep]; intro hcon; exact nomatch hcon
    · have hih := ih ⟨t0, htail, ps0, hps0, p0, hp0, hpne, hpuns⟩
      cases hps : t.params with
      | none =>
        have hstep : checkTransforms fname (t :: rest) = checkTransforms fname rest := by
          simp [checkTransforms, hps]
        rw [hstep]; exact hih
      | some ps =>
        cases hp : ps.pattern with
        | none =>
          have hstep : checkTransforms fname (t :: rest) = checkTransforms fname rest := by
            simp [checkTransforms, hps, hp]
          rw [hstep]; exact hih
        | some p =>
          cases hcond : (p != "" && !isRegexSafe p) with
          | true =>
            have hstep : checkTransforms fname (t :: rest) = .error (.unsafeRegex fname p) := by
              simp [checkTransforms, hps, hp, hcond]
            rw [hstep]; intro hcon; exact nomatch hcon
          | false =>
            have hstep : checkTransforms fname (t :: rest) = checkTransforms fname rest := by
              simp [checkTransforms, hps, hp, hcond]
            rw [hstep]; exact hih

/-- One unfolding step of the field-level gate. -/
theorem checkFieldPatterns_cons (f : FieldDefinition) (rest : List FieldDefinition) :
    checkFieldPatterns (f :: rest) =
      (match FieldDefinition.transforms f with
       | none => Except.ok ()
       | some ts => checkTransforms (FieldDefinition.name f) ts).bind
        (fun _ => checkFieldPatterns rest) := by
  rfl

/-- The field-level safety gate either passes or rejects with
`UNSAFE_REGEX`. -/
theorem checkFieldPatterns_shape (fs : List FieldDefinition) :
    checkFieldPatterns fs = .ok () ∨
    ∃ n p, checkFieldPatterns fs = .error (.unsafeRegex n p) ∧ isRegexSafe p = false := by
  induction fs with
  | nil => exact .inl rfl
  | cons f rest ih =>
    rw [checkFieldPatterns_cons]
    cases htr : FieldDefinition.transforms f with
    | none => simpa [Except.bind] using ih
    | some ts =>
      rcases checkTransforms_shape (FieldDefinition.name f) ts with hok | ⟨p, herr, hsafe⟩
      · simpa [Except.bind, hok] using ih
      · refine .inr ⟨FieldDefinition.name f, p, ?_, hsafe⟩
        simp [Except.bind, herr]

/-- If some top-level field has a transform with a present, unsafe pattern,
the field-level gate does not pass. -/
theorem checkFieldPatterns_fails (fs : List FieldDefinition)
    (hbad : ∃ f ∈ fs, ∃ ts, FieldDefinition.transforms f = some ts ∧
      ∃ t ∈ ts, ∃ ps, t.params = some ps ∧
        ∃ p, ps.pattern = some p ∧ p ≠ "" ∧ isRegexSafe p = false) :
    checkFieldPatterns fs ≠ .ok () := by
  induction fs with
  | nil => rcases hbad with ⟨f, hf, _⟩; exact absurd hf (List.not_mem_nil f)
  | cons f rest ih =>
    rcases hbad with ⟨f0, hf0, ts0, hts0, hinner⟩
    rw [checkFieldPatterns_cons]
    rcases List.mem_cons.mp hf0 with rfl | htail
    · rw [hts0]
      rcases checkTransforms_shape (FieldDefinition.name f0) ts0 with hok | ⟨p, herr, _⟩
      · exact absurd hok (checkTransforms_fails _ _ hinner)
      · simp [Except.bind, herr]
    · have hih := ih ⟨f0, htail, ts0, hts0, hinner⟩
      cases htr : FieldDefinition.transforms f with
      | none => simpa [Except.bind] using hih
      | some ts =>
        rcases checkTransforms_shape (FieldDefinition.name f) ts with hok | ⟨p, herr, _⟩
        · simpa [Except.bind, hok] using hih
        · simp [Except.bind, herr]

/-- C4 (amended): if any *top-level* field of the template carries a
transform whose `params.pattern` is present (truthy) and unsafe, then
`extractPage` raises an `UNSAFE_REGEX` error before anything reaches the
evaluation context — the error is the same for every document, showing the
pattern never reaches evaluation.  (Patterns inside `nested` field lists
are NOT re-checked by this gate; see the counterexample.) -/
theorem c4_unsafe_regex_gate (h : Host) (tmpl : Template)
    (hbad : ∃ f ∈ tmpl.fields, ∃ ts, FieldDefinition.transforms f = some ts ∧
      ∃ t ∈ ts, ∃ ps, t.params = some ps ∧
        ∃ p, ps.pattern = some p ∧ p ≠ "" ∧ isRegexSafe p = false) :
    ∃ fname pat, isRegexSafe pat = false ∧
      ∀ doc, extractPage h doc tmpl = .error (.unsafeRegex fname pat) := by
  rcases checkFieldPatterns_shape tmpl.fields with hok | ⟨n, p, herr, hsafe⟩
  · exact absurd hok (checkFieldPatterns_fails _ hbad)
  · refine ⟨n, p, hsafe, fun doc => ?_⟩
    unfold extractPage
    rw [herr]
    rfl

/-- Witness for C4's amended gate on a concrete template with a top-level
unsafe pattern. -/
theorem c4_unsafe_regex_gate_witness :
    (∃ f ∈ tmplC4top.fields, ∃ ts, FieldDefinition.transforms f = some ts ∧
      ∃ t ∈ ts, ∃ ps, t.params = some ps ∧
        ∃ p, ps.pattern = some p ∧ p ≠ "" ∧ isRegexSafe p = false) ∧
    (∃ fname pat, isRegexSafe pat = false ∧
      ∀ doc, extractPage hostW doc tmplC4top = .error (.unsafeRegex fname pat)) := by
  have hb : ∃ f ∈ tmplC4top.fields, ∃ ts, FieldDefinition.transforms f = some ts ∧
      ∃ t ∈ ts, ∃ ps, t.params = some ps ∧
        ∃ p, ps.pattern = some p ∧ p ≠ "" ∧ isRegexSafe p = false := by
    refine ⟨.mk ("price") (".p") none none
      (some [⟨"regex", some ⟨some ("(.+)+"), none, none, none, none, none, none⟩⟩]) none none,
      ?_, ?_⟩
    · exact List.mem_cons_self _ _
    · exact ⟨_, rfl, _, List.mem_cons_self _ _, _, rfl, ("(.+)+"), rfl, by decide, by rfl⟩
  exact ⟨hb, c4_unsafe_regex_gate hostW tmplC4top hb⟩

/-- Counterexample for C4 as stated: a template whose only unsafe pattern
`(.*)+` sits in a *nested* field's transforms is not stopped — extraction
of the page succeeds instead of raising `UNSAFE_REGEX`, because the gate
only re-checks top-level fields' transforms. -/
theorem c4_counterexample :
    isRegexSafe ("(.*)+") = false ∧
    extractPage hostW domW tmplC4bad = .ok [.obj [("items", .arr [])], .obj [("items", .arr [])]] :=
  ⟨by rfl, by rfl⟩

/-- Assigning a fresh key appends it. -/
theorem objSet_of_not_mem (l : List (String × TVal)) (k : String) (v : TVal)
    (h : k ∉ l.map Prod.fst) : objSet l k v = l ++ [(k, v)] := by
  induction l with
  | nil => rfl
  | cons kv rest ih =>
    have hne : kv.1 ≠ k := by
      intro he
      exact h (by simp [he])
    have hb : (kv.1 == k) = false := by simpa using hne
    rcases kv with ⟨k1, w⟩
    simp only [objSet, hb, Bool.false_eq_true, if_false, List.cons_append, List.cons.injEq, true_and]
    exact ih (fun hm => h (by simp [hm]))

theorem lookupKV_objSet_self (l : List (String × TVal)) (k : String) (v : TVal) :
    lookupKV (objSet l k v) k = some v := by
  induction l with
  | nil => simp [objSet, lookupKV]
  | cons kv rest ih =>
    rcases kv with ⟨k1, w⟩
    by_cases hk : k1 == k
    · simp [objSet, lookupKV, hk]
    · simp only [objSet, hk, Bool.false_eq_true, if_false]
      simpa [lookupKV, hk] using ih

theorem lookupKV_objSet_ne (l : List (String × TVal)) (k k' : String) (v : TVal)
    (h : k ≠ k') : lookupKV (objSet l k' v) k = lookupKV l k := by
  have hb : (k' == k) = false := by simpa using (Ne.symm h)
  induction l with
  | nil => simp [objSet, lookupKV, hb]
  | cons kv rest ih =>
    rcases kv with ⟨k1, w⟩
    by_cases hk : k1 == k'
    · have hk1 : k1 = k' := by simpa using hk
      simp [objSet, lookupKV, hk, hk1, hb]
    · simp only [objSet, hk, Bool.false_eq_true, if_false]
      by_cases hkk : k1 == k
      · simp [lookupKV, hkk]
      · simp [lookupKV, hkk, ih]

/-- Fields whose names are not `k` never touch the binding of `k`. -/
theorem buildItem_foldl_preserve (h : Host) (c : Elem) (p : Option Elem)
    (fs : List FieldDefinition) (acc : List (String × TVal)) (k : String)
    (hk : k ∉ fs.map FieldDefinition.name) :
    lookupKV (fs.foldl
      (fun item f => objSet item (FieldDefinition.name f) (fieldOutcome h c p f)) acc) k =
    lookupKV acc k := by
  induction fs generalizing acc with
  | nil => rfl
  | cons f rest ih =>
    have hk1 : k ≠ FieldDefinition.name f := by
      intro he; exact hk (by simp [he])
    have hk2 : k ∉ rest.map FieldDefinition.name := fun hm => hk (by simp [hm])
    simp only [List.foldl_cons]
    rw [ih _ hk2, lookupKV_objSet_ne _ _ _ _ hk1]

/-- Keys of the record built over `fs`, starting from `acc`. -/
theorem buildItem_foldl_keys (h : Host) (c : Elem) (p : Option Elem)
    (fs : List FieldDefinition) (acc : List (String × TVal))
    (hnd : (acc.map Prod.fst ++ fs.map FieldDefinition.name).Nodup) :
    (fs.foldl
      (fun item f => objSet item (FieldDefinition.name f) (fieldOutcome h c p f)) acc).map
        Prod.fst = acc.map Prod.fst ++ fs.map FieldDefinition.name := by
  induction fs generalizing acc with
  | nil => simp
  | cons f rest ih =>
    have hmem : FieldDefinition.name f ∉ acc.map Prod.fst := by
      rcases List.nodup_append.mp hnd with ⟨_, _, hdis⟩
      intro hm
      exact hdis hm (by simp)
    have hset := objSet_of_not_mem acc (FieldDefinition.name f) (fieldOutcome h c p f) hmem
    have hnd' : ((acc ++ [(FieldDefinition.name f, fieldOutcome h c p f)]).map Prod.fst ++
        rest.map FieldDefinition.name).Nodup := by
      simp only [List.map_append, List.map_cons, List.map_nil]
      have : acc.map Prod.fst ++ [FieldDefinition.name f] ++ rest.map FieldDefinition.name =
          acc.map Prod.fst ++ (FieldDefinition.name f :: rest.map FieldDefinition.name) := by
        simp
      rw [this]
      simpa using hnd
    simp only [List.foldl_cons, hset]
    rw [ih _ hnd']
    simp

/-- Keys present after an assignment. -/
theorem mem_map_fst_objSet (l : List (String × TVal)) (k k2 : String) (v : TVal) :
    k2 ∈ (objSet l k v).map Prod.fst ↔ k2 ∈ l.map Prod.fst ∨ k2 = k := by
  induction l with
  | nil => simp [objSet]
  | cons kv rest ih =>
    rcases kv with ⟨k1, w⟩
    by_cases hk : k1 == k
    · have hk1 : k1 = k := by simpa using hk
      subst hk1
      simp only [objSet, beq_self_eq_true, if_true, List.map_cons, List.mem_cons]
      tauto
    · simp only [objSet, hk, Bool.false_eq_true, if_false]
      simp only [List.map_cons, List.mem_cons]
      rw [ih]
      tauto

/-- The value the finished record holds for a declared field. -/
theorem buildItem_lookup (h : Host) (c : Elem) (p : Option Elem)
    (fs : List FieldDefinition) (f : FieldDefinition)
    (hnd : (fs.map FieldDefinition.name).Nodup) (hf : f ∈ fs) :
    lookupKV (buildItem h fs c p) (FieldDefinition.name f) =
      some (fieldOutcome h c p f) := by
  unfold buildItem
  have hgen : ∀ (gs : List FieldDefinition), (gs.map FieldDefinition.name).Nodup → f ∈ gs →
      ∀ acc : List (String × TVal), FieldDefinition.name f ∉ acc.map Prod.fst →
      lookupKV (gs.foldl
        (fun item g => objSet item (FieldDefinition.name g) (fieldOutcome h c p g)) acc)
        (FieldDefinition.name f) = some (fieldOutcome h c p f) := by
    intro gs
    induction gs with
    | nil => intro _ hmem; exact absurd hmem (List.not_mem_nil f)
    | cons g rest ih =>
      intro hnd2 hmem acc hacc
      rcases List.mem_cons.mp hmem with rfl | htail
      · have hnotin : FieldDefinition.name f ∉ rest.map FieldDefinition.name := by
          simpa using (List.nodup_cons.mp hnd2).1
        simp only [List.foldl_cons]
        rw [buildItem_foldl_preserve h c p rest _ _ hnotin, lookupKV_objSet_self]
      · have hnd3 := (List.nodup_cons.mp hnd2).2
        have hneq : FieldDefinition.name f ≠ FieldDefinition.name g := by
          intro he
          exact (List.nodup_cons.mp hnd2).1 (he ▸ List.mem_map.mpr ⟨f, htail, rfl⟩)
        simp only [List.foldl_cons]
        apply ih hnd3 htail
        intro hmemk
        rcases (mem_map_fst_objSet acc (FieldDefinition.name g) (FieldDefinition.name f)
          (fieldOutcome h c p g)).mp hmemk with h1 | h2
        · exact hacc h1
        · exact hneq h2
  exact hgen fs hnd hf [] (by simp)

/-- A leaf field whose resolved element is `null` yields `fallback ?? null`
without raising. -/
theorem extractField_noElement (h : Host) (c : Elem) (p : Option Elem)
    (f : FieldDefinition)
    (hn : FieldDefinition.nested f = none)
    (hres : resolveElement h c p (FieldDefinition.selector f) = .ok none) :
    extractField h c p f = .ok ((FieldDefinition.fallback f).getD .null) := by
  rcases f with ⟨fname, fsel, fty, fattr, ftr, ffb, fne⟩
  simp only [FieldDefinition.nested] at hn
  subst hn
  simp only [FieldDefinition.selector] at hres
  simp only [extractField, FieldDefinition.fallback]
  rw [hres]
  rfl

/-- C1: for every container element matched in one extraction run, the
produced record's keys are exactly the declared field names in declaration
order; a field whose selector resolves to no element, or whose extraction
raises, contributes its `fallback` (or null) — so no field failure aborts
the record and the record shape is identical across all records of the
run.  (Field names are assumed pairwise distinct; with duplicates a single
JavaScript object key would receive both assignments.) -/
theorem c1_record_shape (h : Host) (doc : Elem) (tmpl : Template) (rs : List TVal)
    (hnd : (tmpl.fields.map FieldDefinition.name).Nodup)
    (hok : extractPage h doc tmpl = .ok rs) :
    rs = ((docDescendants doc).filter (fun q => h.cssMatches tmpl.container q.1)).map
        (fun q => TVal.obj (buildItem h tmpl.fields q.1 q.2)) ∧
    (∀ r ∈ rs, ∃ kvs, r = TVal.obj kvs ∧
      kvs.map Prod.fst = tmpl.fields.map FieldDefinition.name) ∧
    (∀ q ∈ (docDescendants doc).filter (fun q => h.cssMatches tmpl.container q.1),
      ∀ f ∈ tmpl.fields,
        (extractField h q.1 q.2 f = .error () →
          lookupKV (buildItem h tmpl.fields q.1 q.2) (FieldDefinition.name f) =
            some ((FieldDefinition.fallback f).getD .null)) ∧
        (FieldDefinition.nested f = none →
          resolveElement h q.1 q.2 (FieldDefinition.selector f) = .ok none →
          lookupKV (buildItem h tmpl.fields q.1 q.2) (FieldDefinition.name f) =
            some ((FieldDefinition.fallback f).getD .null))) := by
  have hrs : rs = ((docDescendants doc).filter (fun q => h.cssMatches tmpl.container q.1)).map
      (fun q => TVal.obj (buildItem h tmpl.fields q.1 q.2)) := by
    unfold extractPage at hok
    rcases checkFieldPatterns_shape tmpl.fields with hg | ⟨n, p2, herr, _⟩
    · rw [hg] at hok
      cases hv : h.cssValid tmpl.container with
      | true =>
        rw [hv] at hok
        have h2 : (Except.ok (((docDescendants doc).filter
              (fun q => h.cssMatches tmpl.container q.1)).map
              (fun q => TVal.obj (buildItem h tmpl.fields q.1 q.2))) :
            Except PageErr (List TVal)) = Except.ok rs := hok
        exact (Except.ok.inj h2).symm
      | false =>
        rw [hv] at hok
        have h2 : (Except.error (PageErr.hostError ("SyntaxError: invalid container selector")) :
            Except PageErr (List TVal)) = Except.ok rs := hok
        exact nomatch h2
    · rw [herr] at hok
      have h2 : (Except.error (PageErr.unsafeRegex n p2) :
          Except PageErr (List TVal)) = Except.ok rs := hok
      exact nomatch h2
  refine ⟨hrs, ?_, ?_⟩
  · intro r hr
    rw [hrs] at hr
    rcases List.mem_map.mp hr with ⟨q, _, rfl⟩
    refine ⟨buildItem h tmpl.fields q.1 q.2, rfl, ?_⟩
    have := buildItem_foldl_keys h q.1 q.2 tmpl.fields [] (by simpa using hnd)
    simpa [buildItem] using this
  · intro q _ f hf
    constructor
    · intro herr
      rw [buildItem_lookup h q.1 q.2 tmpl.fields f hnd hf]
      unfold fieldOutcome
      rw [herr]
    · intro hn hres
      rw [buildItem_lookup h q.1 q.2 tmpl.fields f hnd hf]
      unfold fieldOutcome
      rw [extractField_noElement h q.1 q.2 f hn hres]

/-- Witness for C1 on a concrete run: two containers, one field found, one
field matching nothing (explicit fallback), one field with a throwing
selector (null fallback). -/
theorem c1_record_shape_witness :
    (tmplW.fields.map FieldDefinition.name).Nodup ∧
    extractPage hostW domW tmplW = .ok rsW ∧
    (rsW = ((docDescendants domW).filter (fun q => hostW.cssMatches tmplW.container q.1)).map
        (fun q => TVal.obj (buildItem hostW tmplW.fields q.1 q.2)) ∧
      (∀ r ∈ rsW, ∃ kvs, r = TVal.obj kvs ∧
        kvs.map Prod.fst = tmplW.fields.map FieldDefinition.name) ∧
      (∀ q ∈ (docDescendants domW).filter (fun q => hostW.cssMatches tmplW.container q.1),
        ∀ f ∈ tmplW.fields,
          (extractField hostW q.1 q.2 f = .error () →
            lookupKV (buildItem hostW tmplW.fields q.1 q.2) (FieldDefinition.name f) =
              some ((FieldDefinition.fallback f).getD .null)) ∧
          (FieldDefinition.nested f = none →
            resolveElement hostW q.1 q.2 (FieldDefinition.selector f) = .ok none →
            lookupKV (buildItem hostW tmplW.fields q.1 q.2) (FieldDefinition.name f) =
              some ((FieldDefinition.fallback f).getD .null)))) :=
  ⟨by decide, by rfl, c1_record_shape hostW domW tmplW rsW (by decide) (by rfl)⟩

theorem ebind_ok {ε α β : Type} (a : α) (f : α → Except ε β) :
    ((Except.ok a : Except ε α) >>= f) = f a := rfl

theorem ebind_error {ε α β : Type} (e : ε) (f : α → Except ε β) :
    ((Except.error e : Except ε α) >>= f) = .error e := rfl

/-- A pattern passing the typed-side conditions produces no
`validateRegexPattern` diagnostics, whatever the path. -/
theorem validateRegexPattern_ok (p path : String) (hp : patternOk p = true) :
    validateRegexPattern p path = [] := by
  have h3 := by simpa [patternOk, Bool.and_eq_true] using hp
  obtain ⟨⟨h1, h2⟩, h3⟩ := h3
  unfold validateRegexPattern
  rw [if_neg (by omega)]
  rcases hpr : parseRegex p with _ | r
  · rw [hpr] at h3; exact nomatch h3
  · simp [h2, hpr]

/-- `validateTransform` never throws on an object argument. -/
theorem validateTransform_noThrow (kvs : List (String × TVal)) (i : Nat) (path : String) :
    ∃ errs, validateTransform (.obj kvs) i path = .ok errs := by
  obtain ⟨tv, htv⟩ : ∃ tv, getProp (.obj kvs) ("type") = .ok tv := ⟨_, rfl⟩
  simp only [validateTransform, htv, ebind_ok]
  by_cases h1 : (!truthy tv || typeofTV tv != "string") = true
  · rw [if_pos h1]
    exact ⟨_, rfl⟩
  · rw [if_neg h1]
    cases tv with
    | str s =>
      by_cases h2 : TRANSFORM_TYPES.contains s
      · obtain ⟨pv, hpv⟩ : ∃ pv, getProp (.obj kvs) ("params") = .ok pv := ⟨_, rfl⟩
        simp only [h2, if_true, Bool.not_true, Bool.false_eq_true, if_false, hpv, ebind_ok]
        exact ⟨_, rfl⟩
      · simp only [h2, Bool.false_eq_true, if_false, Bool.not_false, if_true]
        exact ⟨_, rfl⟩
    | undef => simp [truthy] at h1
    | null => simp [truthy] at h1
    | bool b => simp [typeofTV] at h1
    | num q => simp [typeofTV] at h1
    | arr l => simp [typeofTV] at h1
    | obj kvs2 => simp [typeofTV] at h1

/-- A typed transform that satisfies `transformValid` passes
`validateTransform` with no diagnostics. -/
theorem validateTransform_ok (t : Transform) (i : Nat) (path : String)
    (hv : transformValid t = true) :
    validateTransform (transformToTVal t) i path = .ok [] := by
  rcases t with ⟨tty, tps⟩
  have hv3 := by simpa [transformValid, Bool.and_eq_true] using hv
  obtain ⟨⟨hmem, hpat⟩, hgrp⟩ := hv3
  have hmem2 : tty ∈ TRANSFORM_TYPES := by
    simpa [List.contains_iff_exists_mem_beq] using hmem
  simp only [TRANSFORM_TYPES, List.mem_cons, List.not_mem_nil, or_false] at hmem2
  rcases hmem2 with rfl | rfl | rfl | rfl | rfl | rfl | rfl | rfl | rfl
  -- trim, lowercase, uppercase: no parameter checks apply
  · rcases tps with _ | ps <;>
      simp [validateTransform, transformToTVal, getProp, lookupKV, paramsToTVal,
        optChain, getPropD, truthy, typeofTV, TRANSFORM_TYPES,
        TRANSFORMS_REQUIRING_PATTERN, TRANSFORMS_REQUIRING_SEPARATOR, ebind_ok]
  · rcases tps with _ | ps <;>
      simp [validateTransform, transformToTVal, getProp, lookupKV, paramsToTVal,
        optChain, getPropD, truthy, typeofTV, TRANSFORM_TYPES,
        TRANSFORMS_REQUIRING_PATTERN, TRANSFORMS_REQUIRING_SEPARATOR, ebind_ok]
  · rcases tps with _ | ps <;>
      simp [validateTransform, transformToTVal, getProp, lookupKV, paramsToTVal,
        optChain, getPropD, truthy, typeofTV, TRANSFORM_TYPES,
        TRANSFORMS_REQUIRING_PATTERN, TRANSFORMS_REQUIRING_SEPARATOR, ebind_ok]
  -- replace: requires a present, non-empty, safe pattern
  · rcases tps with _ | ⟨pp, pf, pr, pg, psep, pst, pso⟩
    · simp [TRANSFORMS_REQUIRING_PATTERN] at hpat
    · simp only [TRANSFORMS_REQUIRING_PATTERN] at hpat
      rcases pp with _ | p
      · simp at hpat
      · simp only [show (["replace", "regex"].contains ("replace")) = true from rfl,
          if_true] at hpat
        have hp2 := by simpa [Bool.and_eq_true] using hpat
        obtain ⟨hne, hoksafe⟩ := hp2
        simp [validateTransform, transformToTVal, getProp, lookupKV, paramsToTVal,
          optChain, getPropD, truthy, typeofTV, TRANSFORM_TYPES,
          TRANSFORMS_REQUIRING_PATTERN, TRANSFORMS_REQUIRING_SEPARATOR, ebind_ok,
          hne, validateRegexPattern_ok _ _ hoksafe]
  -- regex: pattern as above, plus an optional non-negative group
  · rcases tps with _ | ⟨pp, pf, pr, pg, psep, pst, pso⟩
    · simp [TRANSFORMS_REQUIRING_PATTERN] at hpat
    · simp only [TRANSFORMS_REQUIRING_PATTERN] at hpat
      rcases pp with _ | p
      · simp at hpat
      · simp only [show (["replace", "regex"].contains ("regex")) = true from rfl,
          if_true] at hpat
        have hp2 := by simpa [Bool.and_eq_true] using hpat
        obtain ⟨hne, hoksafe⟩ := hp2
        rcases pg with _ | g
        · simp [validateTransform, transformToTVal, getProp, lookupKV, paramsToTVal,
            optChain, getPropD, truthy, typeofTV, TRANSFORM_TYPES,
            TRANSFORMS_REQUIRING_PATTERN, TRANSFORMS_REQUIRING_SEPARATOR, ebind_ok,
            hne, validateRegexPattern_ok _ _ hoksafe]
        · have hg : (0 : Rat) ≤ g := by simpa using hgrp
          simp [validateTransform, transformToTVal, getProp, lookupKV, paramsToTVal,
            optChain, getPropD, truthy, typeofTV, TRANSFORM_TYPES,
            TRANSFORMS_REQUIRING_PATTERN, TRANSFORMS_REQUIRING_SEPARATOR, ebind_ok,
            hne, validateRegexPattern_ok _ _ hoksafe, not_lt.mpr hg]
  -- split: an optional separator must be a string, which the type ensures
  · rcases tps with _ | ⟨pp, pf, pr, pg, psep, pst, pso⟩
    · simp [validateTransform, transformToTVal, getProp, lookupKV, paramsToTVal,
        optChain, getPropD, truthy, typeofTV, TRANSFORM_TYPES,
        TRANSFORMS_REQUIRING_PATTERN, TRANSFORMS_REQUIRING_SEPARATOR, ebind_ok]
    · rcases psep with _ | s <;>
        simp [validateTransform, transformToTVal, getProp, lookupKV, paramsToTVal,
          optChain, getPropD, truthy, typeofTV, TRANSFORM_TYPES,
          TRANSFORMS_REQUIRING_PATTERN, TRANSFORMS_REQUIRING_SEPARATOR, ebind_ok]
  -- slice: optional numeric bounds, which the type ensures
  · rcases tps with _ | ⟨pp, pf, pr, pg, psep, pst, pso⟩
    · simp [validateTransform, transformToTVal, getProp, lookupKV, paramsToTVal,
        optChain, getPropD, truthy, typeofTV, TRANSFORM_TYPES,
        TRANSFORMS_REQUIRING_PATTERN, TRANSFORMS_REQUIRING_SEPARATOR, ebind_ok]
    · rcases pst with _ | a <;> rcases pso with _ | b <;>
        simp [validateTransform, transformToTVal, getProp, lookupKV, paramsToTVal,
          optChain, getPropD, truthy, typeofTV, TRANSFORM_TYPES,
          TRANSFORMS_REQUIRING_PATTERN, TRANSFORMS_REQUIRING_SEPARATOR, ebind_ok]
  -- parseInt, parseFloat: no parameter checks apply
  · rcases tps with _ | ps <;>
      simp [validateTransform, transformToTVal, getProp, lookupKV, paramsToTVal,
        optChain, getPropD, truthy, typeofTV, TRANSFORM_TYPES,
        TRANSFORMS_REQUIRING_PATTERN, TRANSFORMS_REQUIRING_SEPARATOR, ebind_ok]
  · rcases tps with _ | ps <;>
      simp [validateTransform, transformToTVal, getProp, lookupKV, paramsToTVal,
        optChain, getPropD, truthy, typeofTV, TRANSFORM_TYPES,
        TRANSFORMS_REQUIRING_PATTERN, TRANSFORMS_REQUIRING_SEPARATOR, ebind_ok]

/-- `validateTransformList` on injected typed transforms never throws, and
yields no diagnostics when every transform in the list is valid. -/
theorem validateTransformList_typed (ts : List Transform) (i : Nat) (path : String) :
    ∃ errs, validateTransformList (ts.map transformToTVal) i path = .ok errs ∧
      (ts.all transformValid = true → errs = []) := by
  induction ts generalizing i with
  | nil => exact ⟨[], rfl, fun _ => rfl⟩
  | cons t rest ih =>
    obtain ⟨e2, he2, hv2⟩ := ih (i + 1)
    obtain ⟨e1, he1⟩ := validateTransform_noThrow
      [("type", .str t.type), ("params", (t.params.map paramsToTVal).getD .undef)] i path
    have he1t : validateTransform (transformToTVal t) i path = .ok e1 := he1
    refine ⟨e1 ++ e2, ?_, ?_⟩
    · show validateTransformList (transformToTVal t :: rest.map transformToTVal) i path = _
      simp only [validateTransformList, he1t, ebind_ok, he2]
    · intro hall
      simp only [List.all_cons, Bool.and_eq_true] at hall
      have h1 : e1 = [] :=
        Except.ok.inj (he1t.symm.trans (validateTransform_ok t i path hall.1))
      rw [h1, hv2 hall.2]
      rfl

mutual

/-- `validateField` on an injected typed field never throws, and yields no
diagnostics when the field satisfies `fieldValid`. -/
theorem validateField_typed : ∀ (f : FieldDefinition) (idx : Nat) (pre : String),
    ∃ errs, validateField (fieldToTVal f) idx pre = .ok errs ∧
      (fieldValid f = true → errs = [])
  | .mk n s ty a tr fb none, idx, pre => by
    rcases ty with _ | t <;> rcases tr with _ | ts
    · refine ⟨(if n == "" then ["Field at index " ++ natToString idx ++ " must have a name (string)"] else []) ++
          (if s == "" then ["Field \"" ++ fieldPathOf (.str n) idx pre ++ "\" must have a selector (string)"] else []),
          ?_, ?_⟩
      · simp [validateField, fieldToTVal, getProp, lookupKV, validateNestedProp,
          truthy, typeofTV, ebind_ok]
      · intro hv
        simp only [fieldValid, Bool.and_eq_true] at hv
        obtain ⟨⟨⟨⟨hn, hs⟩, -⟩, -⟩, -⟩ := hv
        replace hn : n ≠ "" := by simpa using hn
        replace hs : s ≠ "" := by simpa using hs
        simp [hn, hs]
    · obtain ⟨e4, he4, hv4⟩ := validateTransformList_typed ts 0 (fieldPathOf (.str n) idx pre)
      refine ⟨(if n == "" then ["Field at index " ++ natToString idx ++ " must have a name (string)"] else []) ++
          (if s == "" then ["Field \"" ++ fieldPathOf (.str n) idx pre ++ "\" must have a selector (string)"] else []) ++
          e4, ?_, ?_⟩
      · simp [validateField, fieldToTVal, getProp, lookupKV, validateNestedProp,
          truthy, typeofTV, he4, ebind_ok]
      · intro hv
        simp only [fieldValid, Bool.and_eq_true] at hv
        obtain ⟨⟨⟨⟨hn, hs⟩, -⟩, htr⟩, -⟩ := hv
        replace hn : n ≠ "" := by simpa using hn
        replace hs : s ≠ "" := by simpa using hs
        rw [hv4 htr]
        simp [hn, hs]
    · refine ⟨(if n == "" then ["Field at index " ++ natToString idx ++ " must have a name (string)"] else []) ++
          (if s == "" then ["Field \"" ++ fieldPathOf (.str n) idx pre ++ "\" must have a selector (string)"] else []) ++
          (if FIELD_TYPES.contains t then [] else
            ["Field \"" ++ fieldPathOf (.str n) idx pre ++ "\" has invalid type \"" ++ t ++
             "\". Valid types: " ++ String.intercalate (", ") FIELD_TYPES]),
          ?_, ?_⟩
      · simp [validateField, fieldToTVal, getProp, lookupKV, validateNestedProp,
          truthy, typeofTV, ebind_ok]
      · intro hv
        simp only [fieldValid, Bool.and_eq_true] at hv
        obtain ⟨⟨⟨⟨hn, hs⟩, hty⟩, -⟩, -⟩ := hv
        replace hn : n ≠ "" := by simpa using hn
        replace hs : s ≠ "" := by simpa using hs
        have hty2 : t ∈ FIELD_TYPES := by simpa using hty
        simp [hn, hs, hty2]
    · obtain ⟨e4, he4, hv4⟩ := validateTransformList_typed ts 0 (fieldPathOf (.str n) idx pre)
      refine ⟨(if n == "" then ["Field at index " ++ natToString idx ++ " must have a name (string)"] else []) ++
          (if s == "" then ["Field \"" ++ fieldPathOf (.str n) idx pre ++ "\" must have a selector (string)"] else []) ++
          (if FIELD_TYPES.contains t then [] else
            ["Field \"" ++ fieldPathOf (.str n) idx pre ++ "\" has invalid type \"" ++ t ++
             "\". Valid types: " ++ String.intercalate (", ") FIELD_TYPES]) ++
          e4, ?_, ?_⟩
      · simp [validateField, fieldToTVal, getProp, lookupKV, validateNestedProp,
          truthy, typeofTV, he4, ebind_ok]
      · intro hv
        simp only [fieldValid, Bool.and_eq_true] at hv
        obtain ⟨⟨⟨⟨hn, hs⟩, hty⟩, htr⟩, -⟩ := hv
        replace hn : n ≠ "" := by simpa using hn
        replace hs : s ≠ "" := by simpa using hs
        have hty2 : t ∈ FIELD_TYPES := by simpa using hty
        rw [hv4 htr]
        simp [hn, hs, hty2]
  | .mk n s ty a tr fb (some nl), idx, pre => by
    obtain ⟨e5, he5, hv5⟩ := validateFieldList_typed nl 0 (fieldPathOf (.str n) idx pre)
    rcases ty with _ | t <;> rcases tr with _ | ts
    · refine ⟨(if n == "" then ["Field at index " ++ natToString idx ++ " must have a name (string)"] else []) ++
          (if s == "" then ["Field \"" ++ fieldPathOf (.str n) idx pre ++ "\" must have a selector (string)"] else []) ++
          e5, ?_, ?_⟩
      · simp [validateField, fieldToTVal, getProp, lookupKV, validateNestedProp,
          truthy, typeofTV, he5, ebind_ok]
      · intro hv
        simp only [fieldValid, Bool.and_eq_true] at hv
        obtain ⟨⟨⟨⟨hn, hs⟩, -⟩, -⟩, hne⟩ := hv
        replace hn : n ≠ "" := by simpa using hn
        replace hs : s ≠ "" := by simpa using hs
        rw [hv5 hne]
        simp [hn, hs]
    · obtain ⟨e4, he4, hv4⟩ := validateTransformList_typed ts 0 (fieldPathOf (.str n) idx pre)
      refine ⟨(if n == "" then ["Field at index " ++ natToString idx ++ " must have a name (string)"] else []) ++
          (if s == "" then ["Field \"" ++ fieldPathOf (.str n) idx pre ++ "\" must have a selector (string)"] else []) ++
          e4 ++ e5, ?_, ?_⟩
      · simp [validateField, fieldToTVal, getProp, lookupKV, validateNestedProp,
          truthy, typeofTV, he4, he5, ebind_ok]
      · intro hv
        simp only [fieldValid, Bool.and_eq_true] at hv
        obtain ⟨⟨⟨⟨hn, hs⟩, -⟩, htr⟩, hne⟩ := hv
        replace hn : n ≠ "" := by simpa using hn
        replace hs : s ≠ "" := by simpa using hs
        rw [hv4 htr, hv5 hne]
        simp [hn, hs]
    · refine ⟨(if n == "" then ["Field at index " ++ natToString idx ++ " must have a name (string)"] else []) ++
          (if s == "" then ["Field \"" ++ fieldPathOf (.str n) idx pre ++ "\" must have a selector (string)"] else []) ++
          (if FIELD_TYPES.contains t then [] else
            ["Field \"" ++ fieldPathOf (.str n) idx pre ++ "\" has invalid type \"" ++ t ++
             "\". Valid types: " ++ String.intercalate (", ") FIELD_TYPES]) ++
          e5, ?_, ?_⟩
      · simp [validateField, fieldToTVal, getProp, lookupKV, validateNestedProp,
          truthy, typeofTV, he5, ebind_ok]
      · intro hv
        simp only [fieldValid, Bool.and_eq_true] at hv
        obtain ⟨⟨⟨⟨hn, hs⟩, hty⟩, -⟩, hne⟩ := hv
        replace hn : n ≠ "" := by simpa using hn
        replace hs : s ≠ "" := by simpa using hs
        have hty2 : t ∈ FIELD_TYPES := by simpa using hty
        rw [hv5 hne]
        simp [hn, hs, hty2]
    · obtain ⟨e4, he4, hv4⟩ := validateTransformList_typed ts 0 (fieldPathOf (.str n) idx pre)
      refine ⟨(if n == "" then ["Field at index " ++ natToString idx ++ " must have a name (string)"] else []) ++
          (if s == "" then ["Field \"" ++ fieldPathOf (.str n) idx pre ++ "\" must have a selector (string)"] else []) ++
          (if FIELD_TYPES.contains t then [] else
            ["Field \"" ++ fieldPathOf (.str n) idx pre ++ "\" has invalid type \"" ++ t ++
             "\". Valid types: " ++ String.intercalate (", ") FIELD_TYPES]) ++
          e4 ++ e5, ?_, ?_⟩
      · simp [validateField, fieldToTVal, getProp, lookupKV, validateNestedProp,
          truthy, typeofTV, he4, he5, ebind_ok]
      · intro hv
        simp only [fieldValid, Bool.and_eq_true] at hv
        obtain ⟨⟨⟨⟨hn, hs⟩, hty⟩, htr⟩, hne⟩ := hv
        replace hn : n ≠ "" := by simpa using hn
        replace hs : s ≠ "" := by simpa using hs
        have hty2 : t ∈ FIELD_TYPES := by simpa using hty
        rw [hv4 htr, hv5 hne]
        simp [hn, hs, hty2]

/-- `validateFieldList` on injected typed fields never throws, and yields
no diagnostics when every field in the list is valid. -/
theorem validateFieldList_typed : ∀ (l : List FieldDefinition) (i : Nat) (path : String),
    ∃ errs, validateFieldList (fieldListToTVal l) i path = .ok errs ∧
      (fieldsValid l = true → errs = [])
  | [], _, _ => ⟨[], rfl, fun _ => rfl⟩
  | f :: rest, i, path => by
    obtain ⟨e1, he1, hv1⟩ := validateField_typed f i path
    obtain ⟨e2, he2, hv2⟩ := validateFieldList_typed rest (i + 1) path
    refine ⟨e1 ++ e2, ?_, ?_⟩
    · show validateFieldList (fieldToTVal f :: fieldListToTVal rest) i path = _
      simp only [validateFieldList, he1, ebind_ok, he2]
    · intro hall
      simp only [fieldsValid, Bool.and_eq_true] at hall
      rw [hv1 hall.1, hv2 hall.2]
      rfl

end

theorem mkRat_nat_ge_one (n : Nat) (h : 1 ≤ n) : ¬(mkRat (n : Int) 1 < 1) := by
  rw [Rat.mkRat_one, not_lt]
  exact_mod_cast h

theorem mkRat_nat_nonneg (n : Nat) : ¬(mkRat (n : Int) 1 < 0) := by
  rw [Rat.mkRat_one, not_lt]
  positivity

/-- A typed pagination config passing `pagValid` produces no pagination
diagnostics. -/
theorem pagErrs_ok (p : PaginationConfig) (hp : pagValid p = true) :
    pagErrs (pagToTVal p) = [] := by
  obtain ⟨psel, pmax, pwait⟩ := p
  simp only [pagValid, Bool.and_eq_true] at hp
  obtain ⟨hsel, hmax⟩ := hp
  rcases pmax with _ | mn
  · rcases pwait with _ | wn <;>
      simp [pagErrs, pagToTVal, getPropD, lookupKV, truthy, hsel, mkRat_nat_nonneg]
  · have hm : 1 ≤ mn := by simpa using hmax
    have hm0 : ¬mn = 0 := by omega
    rcases pwait with _ | wn <;>
      simp [pagErrs, pagToTVal, getPropD, lookupKV, truthy, hsel, hm0, mkRat_nat_nonneg]

/-- Typed options never produce diagnostics: their numeric members are
natural numbers, hence non-negative. -/
theorem optErrs_typed (o : TemplateOptions) : optErrs (optsToTVal o) = [] := by
  obtain ⟨ws, owm, oj, oto⟩ := o
  rcases oto with _ | tn <;> rcases owm with _ | wn <;>
    simp [optErrs, optsToTVal, getPropD, lookupKV, truthy, mkRat_nat_nonneg]

/-- `validateTemplate` never throws on an injected typed template. -/
theorem validateTemplate_typed_noThrow (t : VTemplate) :
    ∃ errs, validateTemplate (vtemplateToTVal t) = .ok errs := by
  obtain ⟨nm, de, co, fs, pg, op⟩ := t
  obtain ⟨e4, he4⟩ :
      ∃ e4, fieldsErrs ((fs.map (fun l => TVal.arr (fieldListToTVal l))).getD .undef) =
        .ok e4 := by
    rcases fs with _ | l
    · exact ⟨[], rfl⟩
    · obtain ⟨e, he, -⟩ := validateFieldList_typed l 0 ("")
      exact ⟨e, he⟩
  simp [validateTemplate, vtemplateToTVal, getProp, lookupKV, truthy, typeofTV,
    he4, ebind_ok]

/-- C3: applied to a typed template whose present fields and pagination are
themselves valid, `validateTemplate` returns exactly the messages for the
top-level defects present — missing `name`, missing `container`, missing or
empty `fields` list — and no other errors; in particular a fully valid
template yields the empty list, and each defect present contributes its
message to a non-empty result. -/
theorem c3_validateTemplate (t : VTemplate)
    (hf : fieldsValid (t.fields.getD []) = true)
    (hp : t.pagination.all pagValid = true) :
    validateTemplate (vtemplateToTVal t) =
      .ok ((if nameDefect t then ["Template must have a name (string)"] else []) ++
           (if containerDefect t then ["Template must have a container selector (string)"] else []) ++
           (if fieldsDefect t then ["Template must have at least one field"] else [])) := by
  obtain ⟨nm, de, co, fs, pg, op⟩ := t
  have h5 : pagErrs ((pg.map pagToTVal).getD .undef) = [] := by
    rcases pg with _ | p
    · rfl
    · exact pagErrs_ok p (by simpa [Option.all] using hp)
  have h6 : optErrs ((op.map optsToTVal).getD .undef) = [] := by
    rcases op with _ | o
    · rfl
    · exact optErrs_typed o
  rcases fs with _ | ⟨_ | ⟨f, rest⟩⟩
  · rcases nm with _ | ns <;> rcases co with _ | cs <;>
      simp [validateTemplate, vtemplateToTVal, getProp, lookupKV, truthy, typeofTV,
        nameDefect, containerDefect, fieldsDefect, fieldsErrs, h5, h6, ebind_ok]
  · have h4 : validateFieldList ([] : List TVal) 0 ("") = .ok [] := rfl
    rcases nm with _ | ns <;> rcases co with _ | cs <;>
      simp [validateTemplate, vtemplateToTVal, getProp, lookupKV, truthy, typeofTV,
        nameDefect, containerDefect, fieldsDefect, fieldsErrs, fieldListToTVal,
        h4, h5, h6, ebind_ok]
  · obtain ⟨e, he, hv⟩ := validateFieldList_typed (f :: rest) 0 ("")
    rw [hv (by simpa using hf)] at he
    have h4 : validateFieldList (fieldToTVal f :: fieldListToTVal rest) 0 ("") = .ok [] := he
    rcases nm with _ | ns <;> rcases co with _ | cs <;>
      simp [validateTemplate, vtemplateToTVal, getProp, lookupKV, truthy, typeofTV,
        nameDefect, containerDefect, fieldsDefect, fieldsErrs, fieldListToTVal,
        h4, h5, h6, ebind_ok]

/-- Witness for C3 at a typed template that is valid except for a missing
`name`: the result is exactly that one message. -/
theorem c3_validateTemplate_witness :
    fieldsValid (vtmplC3.fields.getD []) = true ∧
    vtmplC3.pagination.all pagValid = true ∧
    validateTemplate (vtemplateToTVal vtmplC3) =
      .ok ((if nameDefect vtmplC3 then ["Template must have a name (string)"] else []) ++
           (if containerDefect vtmplC3 then ["Template must have a container selector (string)"] else []) ++
           (if fieldsDefect vtmplC3 then ["Template must have at least one field"] else [])) :=
  ⟨by decide, by decide, c3_validateTemplate vtmplC3 (by decide) (by decide)⟩

/-- C7 counterexample: `validateTemplate` *can* throw.  On a template
object whose `fields` property is the number `5` — truthy and not nullish,
so `template.fields?.forEach` is invoked on a number — the call raises a
`TypeError` instead of returning a list of error strings. -/
theorem c7_counterexample :
    validateTemplate rawTmplC7 =
      .error ("TypeError: template.fields?.forEach is not a function") := by rfl

/-- C7 (amended): `validateTemplate` returns early with the single message
`"Template must be an object"` on every non-object (or falsy) input, and
returns an accumulated error list without throwing on every template whose
properties have their declared types (in particular whose `fields`, when
present, is an array); but it is *not* total: a truthy non-array,
non-nullish `fields` value makes `template.fields?.forEach` throw. -/
theorem c7_validateTemplate_no_throw :
    (∀ v : TVal, (truthy v && (typeofTV v == "object")) = false →
      validateTemplate v = .ok ["Template must be an object"]) ∧
    (∀ t : VTemplate, ∃ errs, validateTemplate (vtemplateToTVal t) = .ok errs) := by
  constructor
  · intro v hv
    have hcond : (!truthy v || typeofTV v != "object") = true := by
      cases h1 : truthy v <;> cases h2 : typeofTV v == "object" <;>
        simp_all [bne]
    simp [validateTemplate, hcond]
  · intro t
    exact validateTemplate_typed_noThrow t

/-- Witness for C7 on the number `3` (early non-object return). -/
theorem c7_validateTemplate_no_throw_witness :
    (truthy (TVal.num 3) && (typeofTV (TVal.num 3) == "object")) = false ∧
    validateTemplate (TVal.num 3) = .ok ["Template must be an object"] :=
  ⟨by decide, c7_validateTemplate_no_throw.1 (TVal.num 3) (by decide)⟩
